import Mathlib

/-!
Verification development for the JPOProject air-quality client
(`src/app/mainwindow.cpp`, `src/app/mainwindow.h`).

The C++/Qt code is shallowly embedded: the dynamic `QJsonValue` model is the
inductive `JVal`, `QVariantMap` records become typed structures holding exactly
the keys the code reads and writes, doubles coming from parsed decimal strings
are rationals, and the haversine distance (which uses `sin`/`cos`/`atan2`) is
real-valued.  Network replies are oracles passed as explicit arguments, and
each slot of `MainWindow` becomes a function from the relevant state fields to
the new state together with the lists of emitted Qt signals and issued
sub-requests.
-/

namespace JPO

/-- Model of `QJsonValue`: a JSON value, plus the `Undefined` value that
`QJsonObject::operator[]` yields for an absent key. -/
inductive JVal where
  | undef : JVal
  | null : JVal
  | jbool : Bool → JVal
  | jnum : ℚ → JVal
  | jstr : String → JVal
  | jarr : List JVal → JVal
  | jobj : List (String × JVal) → JVal

/-- `QJsonValue::isNull`: true only for the JSON `null` value (not for
`Undefined`, i.e. an absent key). -/
def JVal.isNull : JVal → Bool
  | .null => true
  | _ => false

/-- `QJsonValue::toString` with the default fallback: the string when the value
is a JSON string, the empty string otherwise. -/
def JVal.toString : JVal → String
  | .jstr s => s
  | _ => ""

/-- `QJsonValue::toObject` with the default fallback: the field list when the
value is a JSON object, the empty object otherwise. -/
def JVal.toObject : JVal → List (String × JVal)
  | .jobj fields => fields
  | _ => []

/-- `QJsonValue::toArray` with the default fallback. -/
def JVal.toArray : JVal → List JVal
  | .jarr xs => xs
  | _ => []

/-- `QJsonValue::toInt` with the default fallback `0`: the value when it is a
JSON number that is a whole number, `0` otherwise. -/
def JVal.toInt : JVal → Int
  | .jnum q => if q.den = 1 then q.num else 0
  | _ => 0

/-- `QJsonValue::toDouble` with the default fallback `0`. -/
def JVal.toDouble : JVal → ℚ
  | .jnum q => q
  | _ => 0

/-- `QJsonObject::operator[]`: the value of the first field with the given key,
or `Undefined` when the key is absent. -/
def jfield (obj : List (String × JVal)) (key : String) : JVal :=
  match obj.find? (fun p => p.1 = key) with
  | some p => p.2
  | none => JVal.undef

/-- Digit run to a natural number. -/
def digitsToNat (cs : List Char) : Nat :=
  cs.foldl (fun a c => a * 10 + (c.toNat - 48)) 0

/-- Optional exponent suffix of a decimal literal (`e`/`E`, optional sign,
at least one digit, nothing after it). -/
def applyExponent (q : ℚ) : List Char → Option ℚ
  | [] => some q
  | c :: rest =>
    if c = 'e' ∨ c = 'E' then
      let (sign, ds) :=
        match rest with
        | '-' :: rest2 => ((-1 : Int), rest2)
        | '+' :: rest2 => ((1 : Int), rest2)
        | _ => ((1 : Int), rest)
      if ds ≠ [] ∧ ds.all Char.isDigit then
        some (q * (10 : ℚ) ^ (sign * (digitsToNat ds : Int)))
      else none
    else none

/-- Unsigned decimal literal: digits, optional `.` and fraction digits (at
least one digit overall), optional exponent.  The whole input must be
consumed. -/
def parseUnsignedDecimal (cs : List Char) : Option ℚ :=
  let ip := cs.takeWhile Char.isDigit
  let rest := cs.dropWhile Char.isDigit
  match rest with
  | '.' :: rest2 =>
    let fp := rest2.takeWhile Char.isDigit
    let rest3 := rest2.dropWhile Char.isDigit
    if ip = [] ∧ fp = [] then none
    else applyExponent ((digitsToNat ip : ℚ) + (digitsToNat fp : ℚ) / (10 : ℚ) ^ fp.length) rest3
  | _ =>
    if ip = [] then none
    else applyExponent (digitsToNat ip : ℚ) rest

/-- Leading and trailing whitespace removal on a character list. -/
def trimChars (cs : List Char) : List Char :=
  ((cs.dropWhile Char.isWhitespace).reverse.dropWhile Char.isWhitespace).reverse

/-- Model of `QString::toDouble` with its `ok` flag: trims whitespace, accepts
an optionally signed decimal literal with optional exponent, and fails (the
`ok = false` case) on anything else.  Parsed decimal strings are represented
exactly, as rationals. -/
def parseDecimal (s : String) : Option ℚ :=
  match trimChars s.toList with
  | [] => none
  | '-' :: rest => (parseUnsignedDecimal rest).map (fun q => -q)
  | '+' :: rest => parseUnsignedDecimal rest
  | cs => parseUnsignedDecimal cs

/-- `QString::toDouble()` without the `ok` flag: `0.0` on parse failure. -/
def toDoubleLoose (s : String) : ℚ :=
  (parseDecimal s).getD 0

/-- A normalized station record, with exactly the keys
`MainWindow::processStationsReply` stores into each `QVariantMap`. -/
structure Station where
  id : Int
  name : String
  lat : ℚ
  lon : ℚ
  cityName : String
  communeName : String
  districtName : String
  provinceName : String
  addressStreet : String
  savedToHistory : Bool
deriving DecidableEq, Repr

/-- An element of `m_stations`: a station record, plus the `"dist"` key that
only the nearest-station branch attaches (real-valued, from the haversine
distance). -/
structure StationEntry where
  station : Station
  dist : Option ℝ := none

/-- One raw record of the station-list response, normalized as in
`MainWindow::processStationsReply` lines 155-181: requires non-null `id`,
`gegrLat`, `gegrLon`; skips the record when `gegrLat` or `gegrLon` does not
parse as a decimal string; reads the nested city/commune fields defensively
(an absent object yields empty strings). -/
def parseStationRecord (v : JVal) : Option StationEntry :=
  let obj := v.toObject
  if (jfield obj "id").isNull ∨ (jfield obj "gegrLat").isNull ∨ (jfield obj "gegrLon").isNull then
    none
  else
    match parseDecimal ((jfield obj "gegrLat").toString), parseDecimal ((jfield obj "gegrLon").toString) with
    | some lat, some lon =>
      let city := (jfield obj "city").toObject
      let commune := (jfield city "commune").toObject
      some
        { station :=
            { id := (jfield obj "id").toInt
              name := (jfield obj "stationName").toString
              lat := lat
              lon := lon
              cityName := (jfield city "name").toString
              communeName := (jfield commune "communeName").toString
              districtName := (jfield commune "districtName").toString
              provinceName := (jfield commune "provinceName").toString
              addressStreet := (jfield obj "addressStreet").toString
              savedToHistory := false }
          dist := none }
    | _, _ => none

/-- The station-list parsing loop: dropped records contribute nothing. -/
def parseStations (raws : List JVal) : List StationEntry :=
  raws.filterMap parseStationRecord

/-- `m_result.contains(" ")`. -/
def containsSpace (s : String) : Bool :=
  s.toList.any (fun c => c = ' ')

/-- Split a character list at spaces, keeping empty parts (the
`QString::split` default). -/
def splitChars : List Char → List (List Char)
  | [] => [[]]
  | c :: rest =>
    if c = ' ' then [] :: splitChars rest
    else
      match splitChars rest with
      | g :: gs => (c :: g) :: gs
      | [] => [[c]]

/-- `m_result.split(" ")`. -/
def qSplitSpace (s : String) : List String :=
  (splitChars s.toList).map String.mk

/-- The three selection modes of `processStationsReply`. -/
inductive Mode where
  | allMode : Mode
  | cityMode : Mode
  | nearestMode : Mode
deriving DecidableEq, Repr

/-- The mode dispatch of `processStationsReply` lines 183-221: empty stored
query means all stations, a query without a space means by-city, anything else
(any string containing a space) means nearest. -/
def selectionMode (result : String) : Mode :=
  if result.isEmpty then Mode.allMode
  else if containsSpace result = false then Mode.cityMode
  else Mode.nearestMode

/-- A single measurement, as stored by `processDataReply`: the API-native date
string kept verbatim, the value as a parsed number. -/
structure Measurement where
  date : String
  value : ℚ
deriving DecidableEq, Repr

/-- A sensor record as built by `processSensorsReply`; `measurements` is absent
(`none`) until the sensor's own measurement response has been merged. -/
structure Sensor where
  id : Int
  paramName : String
  paramFormula : String
  measurements : Option (List Measurement) := none
deriving DecidableEq, Repr

/-- The air-quality index record built by `processIndexReply`. -/
structure AirQualityIndex where
  calcDate : String
  indexLevel : Int
  indexLevelName : String
deriving DecidableEq, Repr

/-- `m_stationDetails`: the mutable detail aggregate for the currently selected
station. -/
structure StationDetails where
  stationId : Int
  sensors : List Sensor := []
  airQualityIndex : Option AirQualityIndex := none
deriving DecidableEq, Repr

/-- The state touched by the detail fan-out/fan-in: `m_stationDetails` plus
`m_pendingRequests` (a `QMap<int,int>`, modelled as a total function whose
entries default to `0`). -/
structure AppState where
  details : StationDetails
  pending : Int → Int

/-- Qt signals emitted by the embedded slots. -/
inductive Signal where
  | resultChangedSig : Signal
  | stationsChangedSig : Signal
  | userLocationChangedSig : Signal
  | userAddressChangedSig : Signal
  | stationDetailsChangedSig : Signal
  | historyChangedSig : Signal
  | isFromHistoryChangedSig : Signal
  | networkErr : Signal
deriving DecidableEq, Repr

/-- Outbound HTTP sub-requests issued by the embedded slots. -/
inductive Request where
  | findAllReq : Request
  | sensorsReq : Int → Request
  | indexReq : Int → Request
  | dataReq : Int → Request
deriving DecidableEq, Repr

/-- A network reply: either a request-level error or a successful body. -/
inductive Reply where
  | failure : Reply
  | success : JVal → Reply

/-- Point update of the pending-requests map. -/
def updatePending (p : Int → Int) (k : Int) (v : Int) : Int → Int :=
  fun k2 => if k2 = k then v else p k2

/-- `MainWindow::fetchStationDetails`: clear the previous detail record, set
the station id, set the pending counter to 2, and issue the sensor-list and
index requests. -/
def fetchStationDetails (st : AppState) (stationId : Int) : AppState × List Request :=
  ({ details := { stationId := stationId }
     pending := updatePending st.pending stationId 2 },
   [Request.sensorsReq stationId, Request.indexReq stationId])

/-- One raw sensor record, parsed as in `processSensorsReply` lines 253-257. -/
def parseSensor (v : JVal) : Sensor :=
  let obj := v.toObject
  { id := (jfield obj "id").toInt
    paramName := (jfield (jfield obj "param").toObject "paramName").toString
    paramFormula := (jfield (jfield obj "param").toObject "paramFormula").toString }

/-- The loop of `processSensorsReply` lines 252-261: per raw sensor, append the
parsed record, increment the (threaded) per-station pending counter, and issue
one measurement request. -/
def sensorsLoop : List JVal → List Sensor → Int → List Request → List Sensor × Int × List Request
  | [], sl, c, reqs => (sl, c, reqs)
  | v :: rest, sl, c, reqs =>
    sensorsLoop rest (sl ++ [parseSensor v]) (c + 1) (reqs ++ [Request.dataReq (parseSensor v).id])

/-- The successive values the per-station pending counter takes during the
loop of `processSensorsReply` (one increment per sensor), starting from `c`. -/
def sensorsLoopTrace : List JVal → Int → List Int
  | [], _ => []
  | _ :: rest, c => (c + 1) :: sensorsLoopTrace rest (c + 1)

/-- `MainWindow::processSensorsReply`: on success, parse the sensor list,
spawning one measurement request and one counter increment per sensor, store
the list, then decrement the counter once for the sensor-list request itself;
on failure, emit `networkError` and change nothing. -/
def processSensorsReply (st : AppState) (r : Reply) : AppState × List Request × List Signal :=
  match r with
  | .failure => (st, [], [Signal.networkErr])
  | .success body =>
    let stationId := st.details.stationId
    let (sensorsList, c, reqs) := sensorsLoop body.toArray [] (st.pending stationId) []
    ({ details := { st.details with sensors := sensorsList }
       pending := updatePending st.pending stationId (c - 1) },
     reqs, [])

/-- The measurement-filtering loop of `processDataReply` lines 291-299:
null-valued entries are excluded, the rest keep the API-delivered order. -/
def parseMeasurements (values : List JVal) : List Measurement :=
  values.filterMap (fun v =>
    let m := v.toObject
    if (jfield m "value").isNull then none
    else some { date := (jfield m "date").toString, value := (jfield m "value").toDouble })

/-- The merge loop of `processDataReply` lines 302-309: attach the measurement
list to the first sensor whose `paramFormula` equals the response key (the loop
breaks after the first match). -/
def attachMeasurements (sensors : List Sensor) (key : String) (ms : List Measurement) : List Sensor :=
  match sensors with
  | [] => []
  | s :: rest =>
    if s.paramFormula = key then { s with measurements := some ms } :: rest
    else s :: attachMeasurements rest key ms

/-- `MainWindow::processDataReply`: on success, filter out null measurements,
attach the series to the first formula-matching sensor, emit
`stationDetailsChanged`, and decrement the pending counter; on failure, emit
`networkError` and change nothing. -/
def processDataReply (st : AppState) (r : Reply) : AppState × List Request × List Signal :=
  match r with
  | .failure => (st, [], [Signal.networkErr])
  | .success body =>
    let obj := body.toObject
    let key := (jfield obj "key").toString
    let measurements := parseMeasurements (jfield obj "values").toArray
    let stationId := st.details.stationId
    ({ details := { st.details with sensors := attachMeasurements st.details.sensors key measurements }
       pending := updatePending st.pending stationId (st.pending stationId - 1) },
     [], [Signal.stationDetailsChangedSig])

/-- The index record built by `processIndexReply` lines 333-337. -/
def parseAirQualityIndex (body : JVal) : AirQualityIndex :=
  let obj := body.toObject
  { calcDate := (jfield obj "stCalcDate").toString
    indexLevel := (jfield (jfield obj "stIndexLevel").toObject "id").toInt
    indexLevelName := (jfield (jfield obj "stIndexLevel").toObject "indexLevelName").toString }

/-- `MainWindow::processIndexReply`: on success, store the air-quality index,
emit `stationDetailsChanged`, and decrement the pending counter; on failure,
emit `networkError` and change nothing. -/
def processIndexReply (st : AppState) (r : Reply) : AppState × List Request × List Signal :=
  match r with
  | .failure => (st, [], [Signal.networkErr])
  | .success body =>
    let stationId := st.details.stationId
    ({ details := { st.details with airQualityIndex := some (parseAirQualityIndex body) }
       pending := updatePending st.pending stationId (st.pending stationId - 1) },
     [], [Signal.stationDetailsChangedSig])

/-- The sub-responses a detail fetch waits for: the sensor list, one
measurement response per sensor index, and the index response. -/
inductive DEvent where
  | sensorsEv : DEvent
  | dataEv : Nat → DEvent
  | indexEv : DEvent
deriving DecidableEq, Repr

/-- A fixed detail-fetch scenario: the sensor-list body is `jarr raws`, the
measurement response for sensor index `i` is `dataResp i`, and the index
response is `indexResp`. -/
def applyEvent (raws : List JVal) (dataResp : Nat → JVal) (indexResp : JVal)
    (st : AppState) : DEvent → AppState × List Request
  | .sensorsEv =>
    let (st2, reqs, _) := processSensorsReply st (Reply.success (JVal.jarr raws))
    (st2, reqs)
  | .dataEv i =>
    let (st2, reqs, _) := processDataReply st (Reply.success (dataResp i))
    (st2, reqs)
  | .indexEv =>
    let (st2, reqs, _) := processIndexReply st (Reply.success indexResp)
    (st2, reqs)

/-- The state transition of one arriving sub-response. -/
def stepEv (raws : List JVal) (dataResp : Nat → JVal) (indexResp : JVal)
    (st : AppState) (e : DEvent) : AppState :=
  (applyEvent raws dataResp indexResp st e).1

/-- Process a list of sub-responses in arrival order. -/
def runEvents (raws : List JVal) (dataResp : Nat → JVal) (indexResp : JVal)
    (st : AppState) (σ : List DEvent) : AppState :=
  σ.foldl (stepEv raws dataResp indexResp) st

/-- Process a list of sub-responses, also collecting the sub-requests they
spawn. -/
def runEventsFull (raws : List JVal) (dataResp : Nat → JVal) (indexResp : JVal)
    (st : AppState) : List DEvent → AppState × List Request
  | [] => (st, [])
  | e :: rest =>
    let (st2, reqs) := applyEvent raws dataResp indexResp st e
    let (st3, reqs2) := runEventsFull raws dataResp indexResp st2 rest
    (st3, reqs ++ reqs2)

/-- The complete multiset of sub-responses of a detail fetch for a station
whose sensor list has `n` sensors: the sensor list, `n` measurement responses,
the index response. -/
def fullEvents (n : Nat) : List DEvent :=
  DEvent.sensorsEv :: ((List.range n).map DEvent.dataEv ++ [DEvent.indexEv])

/-- Causality of an arrival order: no measurement response arrives before the
sensor-list response (the measurement requests are only issued when the sensor
list is processed). -/
def noDataBeforeSensors : List DEvent → Bool
  | [] => true
  | DEvent.sensorsEv :: _ => true
  | DEvent.dataEv _ :: _ => false
  | DEvent.indexEv :: rest => noDataBeforeSensors rest

/-- The sensor list with measurement series filled in below index `j`:
`popFrom g base l` maps position `base + i` of `l` to its sensor with
`measurements` replaced by `g (base + i)`. -/
def popFrom (g : Nat → Option (List Measurement)) : Nat → List Sensor → List Sensor
  | _, [] => []
  | base, s :: rest => { s with measurements := g base } :: popFrom g (base + 1) rest

/-- The `key` field of the `i`-th measurement response. -/
def dataKey (dataResp : Nat → JVal) (i : Nat) : String :=
  (jfield (dataResp i).toObject "key").toString

/-- The parsed (null-filtered, order-preserving) measurement series of the
`i`-th measurement response. -/
def dataMeas (dataResp : Nat → JVal) (i : Nat) : List Measurement :=
  parseMeasurements (jfield (dataResp i).toObject "values").toArray

/-- Recognizer for the sensor-list event. -/
def isSensors : DEvent → Bool
  | .sensorsEv => true
  | _ => false

/-- Recognizer for a measurement event. -/
def isData : DEvent → Bool
  | .dataEv _ => true
  | _ => false

/-- Recognizer for the index event. -/
def isIndex : DEvent → Bool
  | .indexEv => true
  | _ => false

/-- Default sensor record, used with `List.getD`. -/
def defaultSensor : Sensor :=
  { id := 0, paramName := "", paramFormula := "" }

/-- A blank application state. -/
def initAppState : AppState :=
  { details := { stationId := 0 }, pending := fun _ => 0 }

/-- A two-sensor sensor-list response (PM10 and NO2). -/
def sensorsBodySample : List JVal :=
  [JVal.jobj [("id", JVal.jnum 100),
    ("param", JVal.jobj [("paramName", JVal.jstr "pył zawieszony PM10"),
      ("paramFormula", JVal.jstr "PM10")])],
   JVal.jobj [("id", JVal.jnum 101),
    ("param", JVal.jobj [("paramName", JVal.jstr "dwutlenek azotu"),
      ("paramFormula", JVal.jstr "NO2")])]]

/-- Measurement responses matching `sensorsBodySample` (one null entry to be
filtered). -/
def dataRespSample : Nat → JVal := fun i =>
  if i = 0 then
    JVal.jobj [("key", JVal.jstr "PM10"),
      ("values", JVal.jarr [JVal.jobj [("date", JVal.jstr "d1"), ("value", JVal.null)],
        JVal.jobj [("date", JVal.jstr "d2"), ("value", JVal.jnum 17)]])]
  else
    JVal.jobj [("key", JVal.jstr "NO2"),
      ("values", JVal.jarr [JVal.jobj [("date", JVal.jstr "d3"), ("value", JVal.jnum 5)]])]

/-- An index response. -/
def indexRespSample : JVal :=
  JVal.jobj [("stCalcDate", JVal.jstr "2023-10-01 12:00:00"),
    ("stIndexLevel", JVal.jobj [("id", JVal.jnum 2), ("indexLevelName", JVal.jstr "Dobry")])]

/-- An out-of-order but causal arrival order for the two-sensor scenario. -/
def eventsOrderSample : List DEvent :=
  [DEvent.sensorsEv, DEvent.dataEv 1, DEvent.indexEv, DEvent.dataEv 0]

/-- A second causal arrival order for the two-sensor scenario. -/
def eventsOrderSample2 : List DEvent :=
  [DEvent.indexEv, DEvent.sensorsEv, DEvent.dataEv 0, DEvent.dataEv 1]

attribute [ext] StationDetails
attribute [ext] AppState

/-- The constant `PI` of `mainwindow.cpp` line 10 (the double literal, used in
place of the exact π). -/
noncomputable def PI : ℝ := 3.14159265358979323846

/-- `std::atan2 y x`, modelled as the argument of the complex number
`x + y·i`. -/
noncomputable def atan2 (y x : ℝ) : ℝ :=
  Complex.arg ⟨x, y⟩

/-- `std::numeric_limits<double>::max()`. -/
noncomputable def DBL_MAX : ℝ := 2 ^ 1024 - 2 ^ 971

/-- `MainWindow::calculateDistance`: the haversine great-circle distance in
kilometres, Earth radius 6371 km. -/
noncomputable def calculateDistance (lat1 lon1 lat2 lon2 : ℝ) : ℝ :=
  let R : ℝ := 6371
  let dLat := (lat2 - lat1) * PI / 180
  let dLon := (lon2 - lon1) * PI / 180
  let a := Real.sin (dLat / 2) * Real.sin (dLat / 2) +
    Real.cos (lat1 * PI / 180) * Real.cos (lat2 * PI / 180) *
      (Real.sin (dLon / 2) * Real.sin (dLon / 2))
  let c := 2 * atan2 (Real.sqrt a) (Real.sqrt (1 - a))
  R * c

/-- Fixed-point rendering with two decimals, modelling
`QString::arg(x, 0, 'f', 2)` (rounding to the nearest hundredth). -/
noncomputable def formatF2 (x : ℝ) : String :=
  let n : Int := ⌊x * 100 + 1 / 2⌋
  let sign := if n < 0 then "-" else ""
  let m := n.natAbs
  let frac := m % 100
  sign ++ ToString.toString (m / 100) ++ "." ++
    (if frac < 10 then "0" else "") ++ ToString.toString frac

/-- The nearest-station scan of `processStationsReply` lines 207-217: a linear
scan keeping the strictly smallest distance seen so far (so the first minimum
wins on exact ties); the kept record gets the distance attached under the
`"dist"` key. -/
noncomputable def nearestLoop (lat lon : ℝ) :
    List StationEntry → ℝ → Option StationEntry → ℝ × Option StationEntry
  | [], minDist, closest => (minDist, closest)
  | e :: rest, minDist, closest =>
    let dist := calculateDistance lat lon (e.station.lat : ℝ) (e.station.lon : ℝ)
    if dist < minDist then
      nearestLoop lat lon rest dist (some { e with dist := some dist })
    else
      nearestLoop lat lon rest minDist closest

/-- The latitude token of the stored "lat lon" query, parsed as in
`processStationsReply` lines 201-202 (`toDouble` without an `ok` check). -/
noncomputable def queryLat (result : String) : ℝ :=
  (toDoubleLoose ((qSplitSpace result).getD 0 "") : ℝ)

/-- The longitude token of the stored "lat lon" query. -/
noncomputable def queryLon (result : String) : ℝ :=
  (toDoubleLoose ((qSplitSpace result).getD 1 "") : ℝ)

/-- The haversine distance from the query point to a station entry. -/
noncomputable def entryDist (lat lon : ℝ) (e : StationEntry) : ℝ :=
  calculateDistance lat lon (e.station.lat : ℝ) (e.station.lon : ℝ)

/-- A station read out of an empty `QVariantMap` (every read yields the
QVariant default). -/
def emptyStation : Station :=
  { id := 0, name := "", lat := 0, lon := 0, cityName := "", communeName := ""
    districtName := "", provinceName := "", addressStreet := "", savedToHistory := false }

/-- The state touched by `processStationsReply`: the outcome message
`m_result` and the station list `m_stations`. -/
structure CatalogState where
  result : String
  stations : List StationEntry

/-- `MainWindow::processStationsReply`: on transport failure, clear the
catalog and surface the fixed no-connection message plus `networkError`; on
success, parse the station list and apply the selection mode chosen by the
stored query string (all / by-city / nearest). -/
noncomputable def processStationsReply (st : CatalogState) (r : Reply) : CatalogState × List Signal :=
  match r with
  | .failure =>
    ({ result := "Brak połączenia z internetem/bazą danych", stations := [] },
     [Signal.resultChangedSig, Signal.networkErr])
  | .success body =>
    let parsed := parseStations body.toArray
    match selectionMode st.result with
    | Mode.allMode =>
      ({ result := st.result, stations := parsed },
       [Signal.stationsChangedSig, Signal.resultChangedSig])
    | Mode.cityMode =>
      let city := st.result
      let filtered := parsed.filter (fun e => e.station.cityName = city)
      if filtered.isEmpty then
        ({ result := "Nie znaleziono stacji w miejscowości " ++ city, stations := filtered },
         [Signal.stationsChangedSig, Signal.resultChangedSig])
      else
        ({ result := "", stations := filtered },
         [Signal.stationsChangedSig, Signal.resultChangedSig])
    | Mode.nearestMode =>
      match nearestLoop (queryLat st.result) (queryLon st.result) parsed DBL_MAX none with
      | (minDist, some c) =>
        ({ result := "Najbliższa stacja: " ++ c.station.name ++ ", Odległość: " ++
             formatF2 minDist ++ " km"
           stations := [c] },
         [Signal.stationsChangedSig, Signal.resultChangedSig])
      | (minDist, none) =>
        ({ result := "Najbliższa stacja: " ++ emptyStation.name ++ ", Odległość: " ++
             formatF2 minDist ++ " km"
           stations := [{ station := emptyStation, dist := none }] },
         [Signal.stationsChangedSig, Signal.resultChangedSig])

/-- Left-pad a natural number to six digits. -/
def pad6 (n : Nat) : String :=
  let s := ToString.toString n
  String.mk (List.replicate (6 - s.length) '0') ++ s

/-- Drop trailing `'0'` characters. -/
def trimTrailingZeros (s : String) : String :=
  String.mk ((s.toList.reverse.dropWhile (fun c => c = '0')).reverse)

/-- Decimal rendering of a nonnegative rational to at most six fractional
digits. -/
def formatArgAbs (q : ℚ) : String :=
  let ip := (⌊q⌋).toNat
  let fr := (⌊(q - (⌊q⌋ : ℚ)) * 1000000⌋).toNat
  if fr = 0 then ToString.toString ip
  else ToString.toString ip ++ "." ++ trimTrailingZeros (pad6 fr)

/-- Abstraction of the default `QString::arg(double)` rendering used at
`mainwindow.cpp` line 101; no claim depends on its exact digits, only on it
being a single space-free token per coordinate. -/
def formatArgDouble (q : ℚ) : String :=
  if q < 0 then "-" ++ formatArgAbs (-q) else formatArgAbs q

/-- The geocoding reply received inside `getLocationCoords`: a request-level
error, or a JSON array of result records. -/
inductive GeoResponse where
  | transportFailure : GeoResponse
  | ok : List JVal → GeoResponse

/-- `QGeoCoordinate(lat, lon)` collapsed to `Option`: `some` exactly when the
coordinate is valid (`QGeoCoordinate::isValid`), i.e. latitude in [-90, 90]
and longitude in [-180, 180]; `none` models an invalid coordinate (also the
default-constructed `QGeoCoordinate()`). -/
def mkGeoCoordinate (lat lon : ℚ) : Option (ℚ × ℚ) :=
  if -90 ≤ lat ∧ lat ≤ 90 ∧ -180 ≤ lon ∧ lon ≤ 180 then some (lat, lon) else none

/-- `MainWindow::getLocationCoords`: on a request error or an empty result
array, the invalid default coordinate; otherwise the first record's `lat`/`lon`
decimal strings (parsed without an `ok` check, so garbage reads as `0`). -/
def getLocationCoords (resp : GeoResponse) : Option (ℚ × ℚ) :=
  match resp with
  | .transportFailure => none
  | .ok data =>
    match data with
    | [] => none
    | v :: _ =>
      let obj := v.toObject
      mkGeoCoordinate (toDoubleLoose (jfield obj "lat").toString)
        (toDoubleLoose (jfield obj "lon").toString)

/-- The session state the search entry points reset: `m_result`,
`m_userLocation` (a map holding `lat`/`lon`, so `Option` of a pair),
`m_userAddress`, and `m_isFromHistory`. -/
structure SearchState where
  result : String
  userLocation : Option (ℚ × ℚ)
  userAddress : String
  isFromHistory : Bool
deriving DecidableEq, Repr

/-- `MainWindow::fetchAllStations`: clear location, address and result, reset
the history flag, and issue the station-list request. -/
def fetchAllStations (_st : SearchState) : SearchState × List Signal × List Request :=
  ({ result := "", userLocation := none, userAddress := "", isFromHistory := false },
   [Signal.userLocationChangedSig, Signal.userAddressChangedSig, Signal.resultChangedSig,
    Signal.isFromHistoryChangedSig],
   [Request.findAllReq])

/-- `MainWindow::fetchStationsByCity`: clear location and address, store the
city name as the query, reset the history flag, and issue the station-list
request. -/
def fetchStationsByCity (_st : SearchState) (city : String) : SearchState × List Signal × List Request :=
  ({ result := city, userLocation := none, userAddress := "", isFromHistory := false },
   [Signal.userLocationChangedSig, Signal.userAddressChangedSig, Signal.resultChangedSig,
    Signal.isFromHistoryChangedSig],
   [Request.findAllReq])

/-- `MainWindow::fetchNearestStation`: geocode the address first; on success,
store the coordinate, the address, and the "lat lon" query string, reset the
history flag, and issue the station-list request; on failure, only overwrite
the result message with the location-not-found text and emit `networkError`. -/
def fetchNearestStation (st : SearchState) (location : String) (resp : GeoResponse) :
    SearchState × List Signal × List Request :=
  match getLocationCoords resp with
  | some c =>
    ({ result := formatArgDouble c.1 ++ " " ++ formatArgDouble c.2
       userLocation := some c
       userAddress := location
       isFromHistory := false },
     [Signal.userLocationChangedSig, Signal.userAddressChangedSig, Signal.resultChangedSig,
      Signal.isFromHistoryChangedSig],
     [Request.findAllReq])
  | none =>
    ({ st with result := "Nie znaleziono lokalizacji: " ++ location },
     [Signal.resultChangedSig, Signal.networkErr],
     [])

/-- Leap-year rule of the Gregorian calendar. -/
def isLeapYear (y : Nat) : Bool :=
  decide (y % 4 = 0 ∧ (y % 100 ≠ 0 ∨ y % 400 = 0))

/-- Days in a month of the proleptic Gregorian calendar. -/
def daysInMonth (y mo : Nat) : Nat :=
  if mo = 2 then (if isLeapYear y then 29 else 28)
  else if mo = 4 ∨ mo = 6 ∨ mo = 9 ∨ mo = 11 then 30
  else 31

/-- Model of `QDateTime::fromString(s, Qt::ISODate)` restricted to the
canonical `yyyy-MM-ddTHH:mm:ss` form the application itself writes
(`QDateTime::toString(Qt::ISODate)`): `none` is an invalid `QDateTime`, and a
valid one is encoded as an integer that is strictly monotone in the calendar
order, so `QDateTime` comparison is integer comparison. -/
def parseISODate (s : String) : Option Int :=
  match s.toList with
  | [y1, y2, y3, y4, c1, m1, m2, c2, d1, d2, c3, h1, h2, c4, n1, n2, c5, s1, s2] =>
    if c1 = '-' ∧ c2 = '-' ∧ c3 = 'T' ∧ c4 = ':' ∧ c5 = ':'
        ∧ [y1, y2, y3, y4, m1, m2, d1, d2, h1, h2, n1, n2, s1, s2].all Char.isDigit then
      let y := digitsToNat [y1, y2, y3, y4]
      let mo := digitsToNat [m1, m2]
      let d := digitsToNat [d1, d2]
      let h := digitsToNat [h1, h2]
      let mi := digitsToNat [n1, n2]
      let sec := digitsToNat [s1, s2]
      if 1 ≤ mo ∧ mo ≤ 12 ∧ 1 ≤ d ∧ d ≤ daysInMonth y mo ∧ h ≤ 23 ∧ mi ≤ 59 ∧ sec ≤ 59 then
        some ((((((y * 12 + mo) * 31 + d) * 24 + h) * 60 + mi) * 60 + sec : Nat) : Int)
      else none
    else none
  | _ => none

/-- `QDateTime::fromString(a) > QDateTime::fromString(b)` as at
`mainwindow.cpp` line 599: Qt orders invalid date-times before all valid ones,
so an unparsable timestamp loses any comparison. -/
def tsGT (a b : String) : Bool :=
  match parseISODate a, parseISODate b with
  | some x, some y => decide (y < x)
  | some _, none => true
  | none, _ => false

/-- A history entry: the deep-copied station record plus the detail snapshot
and the save-time timestamp (`saveStationToHistory` lines 456-459). -/
structure HistoryEntry where
  station : Station
  airQualityIndex : Option AirQualityIndex
  sensors : List Sensor
  timestamp : String
deriving DecidableEq, Repr

/-- `QChar`-style lowercasing: ASCII letters plus the Polish diacritics that
occur in the city names this application handles (Qt's `toLower` is fully
Unicode-aware; the model covers the alphabet of the data). -/
def qCharLower (c : Char) : Char :=
  if 'A' ≤ c ∧ c ≤ 'Z' then Char.ofNat (c.toNat + 32)
  else if c = 'Ą' then 'ą' else if c = 'Ć' then 'ć' else if c = 'Ę' then 'ę'
  else if c = 'Ł' then 'ł' else if c = 'Ń' then 'ń' else if c = 'Ó' then 'ó'
  else if c = 'Ś' then 'ś' else if c = 'Ź' then 'ź' else if c = 'Ż' then 'ż'
  else c

/-- `QString::toLower`. -/
def qStringLower (s : String) : String :=
  String.mk (s.toList.map qCharLower)

/-- `QMap<int, QVariantMap>` lookup (`contains`/`operator[]` read). -/
def qmapLookup (m : List (Int × HistoryEntry)) (k : Int) : Option HistoryEntry :=
  (m.find? (fun p => p.1 = k)).map (fun p => p.2)

/-- `QMap<int, QVariantMap>` insert-or-replace; the list is kept sorted by key
so that `values()` comes out in ascending key order, as for a `QMap`. -/
def qmapInsert (m : List (Int × HistoryEntry)) (k : Int) (v : HistoryEntry) :
    List (Int × HistoryEntry) :=
  match m with
  | [] => [(k, v)]
  | (k2, v2) :: rest =>
    if k < k2 then (k, v) :: (k2, v2) :: rest
    else if k = k2 then (k, v) :: rest
    else (k2, v2) :: qmapInsert rest k v

/-- The body of the history scan of `getStationsForCity` lines 588-604: on a
case-insensitive city match, keep the entry unless an entry with the same
station id and a timestamp that does not lose the comparison is already
stored. -/
def historyScanStep (city : String) (m : List (Int × HistoryEntry)) (e : HistoryEntry) :
    List (Int × HistoryEntry) :=
  if qStringLower e.station.cityName = qStringLower city then
    match qmapLookup m e.station.id with
    | none => qmapInsert m e.station.id e
    | some existing =>
      if tsGT e.timestamp existing.timestamp then qmapInsert m e.station.id e else m
  else m

/-- `MainWindow::getStationsForCity`: scan `m_history`, keep per station id
only the latest matching entry, and return the kept entries (`QMap::values`,
ascending key order). -/
def getStationsForCity (history : List HistoryEntry) (city : String) : List HistoryEntry :=
  (history.foldl (historyScanStep city) []).map (fun p => p.2)

/-- The state touched by `saveStationToHistory(int)`: the station list, the
current detail record, the in-memory history cache `m_history`, and the
contents of `history.json`. -/
structure SaveState where
  stations : List Station
  stationDetails : StationDetails
  history : List HistoryEntry
  historyFile : List HistoryEntry
deriving DecidableEq, Repr

/-- The scan of `saveStationToHistory(int)` lines 449-485: find the first
station with the requested id; if it is already saved, return without
changes; otherwise build the history entry (station snapshot plus current
detail data and timestamp), prepend it to the file contents, and mark the
station as saved.  `none` covers both the early return and the no-match
fall-through, which leave every field untouched. -/
def saveScan (details : StationDetails) (fileHistory : List HistoryEntry) (now : String)
    (stationId : Int) : List Station → Option (List Station × List HistoryEntry)
  | [] => none
  | s :: rest =>
    if s.id = stationId then
      if s.savedToHistory then none
      else
        some ({ s with savedToHistory := true } :: rest,
          { station := s, airQualityIndex := details.airQualityIndex
            sensors := details.sensors, timestamp := now } :: fileHistory)
    else
      match saveScan details fileHistory now stationId rest with
      | none => none
      | some (rest2, h) => some (s :: rest2, h)

/-- `MainWindow::saveStationToHistory(int)`: scan for the first station with
the given id; a hit that is not yet saved prepends a new entry to the history
file, updates the in-memory cache to the file contents, and flips the
station's `savedToHistory` flag. -/
def saveStationToHistory (st : SaveState) (stationId : Int) (now : String) :
    SaveState × List Signal :=
  match saveScan st.stationDetails st.historyFile now stationId st.stations with
  | none => (st, [])
  | some (stations2, newHistory) =>
    ({ st with stations := stations2, history := newHistory, historyFile := newHistory },
     [Signal.historyChangedSig, Signal.stationsChangedSig])

/-- `QList::find first` on station id, used to phrase the save-idempotence
claim. -/
def firstWithId (l : List Station) (k : Int) : Option Station :=
  l.find? (fun s => s.id = k)

/-- Concrete sample data used by the closed witness statements below. -/
def savedStationSample : Station :=
  { emptyStation with id := 5, savedToHistory := true }

/-- A save-state whose only station is already saved. -/
def saveStateSample : SaveState :=
  { stations := [savedStationSample], stationDetails := { stationId := 5 }
    history := [], historyFile := [] }

/-- The spec's nearest-mode trigger, written from its words: the stored query
string is exactly two space-separated numeric tokens ("lat lon").  Used only
to compare the specified trigger with the one implemented by
`selectionMode`. -/
def specTwoNumericTokens (s : String) : Bool :=
  match qSplitSpace s with
  | [a, b] => (parseDecimal a).isSome && (parseDecimal b).isSome
  | _ => false

/-- A raw station record whose `id` is present but whose `gegrLat` does not
parse as a decimal string. -/
def badLatRecord : JVal :=
  JVal.jobj [("id", JVal.jnum 1), ("gegrLat", JVal.jstr "abc"), ("gegrLon", JVal.jstr "21")]

/-- A station-list body with one Warszawa and one Kraków station. -/
def cityBodySample : JVal :=
  JVal.jarr
    [JVal.jobj [("id", JVal.jnum 1), ("gegrLat", JVal.jstr "52.2297"),
      ("gegrLon", JVal.jstr "21.0122"), ("stationName", JVal.jstr "W1"),
      ("city", JVal.jobj [("name", JVal.jstr "Warszawa")])],
     JVal.jobj [("id", JVal.jnum 2), ("gegrLat", JVal.jstr "50.0647"),
      ("gegrLon", JVal.jstr "19.945"), ("stationName", JVal.jstr "K1"),
      ("city", JVal.jobj [("name", JVal.jstr "Kraków")])]]

/-- A station-list body with a single parsable station, used by the
nearest-mode witness. -/
def nearestBodySample : JVal :=
  JVal.jarr
    [JVal.jobj [("id", JVal.jnum 7), ("gegrLat", JVal.jstr "52.5"),
      ("gegrLon", JVal.jstr "21.5"), ("stationName", JVal.jstr "S"),
      ("city", JVal.jobj [("name", JVal.jstr "Miasto")])]]

/-- The timestamp of a history entry as a comparison key: an unparsable
timestamp is the bottom element, so Qt's invalid-before-valid `QDateTime`
order becomes the `WithBot ℤ` order. -/
def tsKey (s : String) : WithBot ℤ :=
  match parseISODate s with
  | some x => (x : WithBot ℤ)
  | none => ⊥

/-- Case-insensitive city match used by the history scan. -/
def matchesCity (city : String) (e : HistoryEntry) : Prop :=
  qStringLower e.station.cityName = qStringLower city

/-- Invariant of the history-scan accumulator after processing the entries of
`seen`: every stored pair holds a matching entry of `seen` under its own
station id whose timestamp key is maximal among the matching same-id entries
of `seen`; the keys are strictly sorted; and every matching entry of `seen`
has its id stored. -/
def historyScanInv (city : String) (seen : List HistoryEntry)
    (m : List (Int × HistoryEntry)) : Prop :=
  (∀ p ∈ m, p.2 ∈ seen ∧ matchesCity city p.2 ∧ p.2.station.id = p.1
    ∧ ∀ e ∈ seen, matchesCity city e → e.station.id = p.1 →
        ¬ (tsKey p.2.timestamp < tsKey e.timestamp))
  ∧ (m.map Prod.fst).Sorted (fun a b => a < b)
  ∧ ∀ e ∈ seen, matchesCity city e → ∃ p ∈ m, p.1 = e.station.id

/-- History sample mirroring `tst_mainwindow.cpp`: two Warszawa entries for
station 1 (older and newer) and one Kraków entry for station 2. -/
def histEntryOldW : HistoryEntry :=
  { station := { emptyStation with id := 1, cityName := "Warszawa", name := "Stacja Warszawa 1" }
    airQualityIndex := none, sensors := [], timestamp := "2023-10-01T12:00:00" }

/-- The newer Warszawa entry for station 1. -/
def histEntryNewW : HistoryEntry :=
  { station :=
      { emptyStation with id := 1, cityName := "Warszawa", name := "Stacja Warszawa 1 (nowsza)" }
    airQualityIndex := none, sensors := [], timestamp := "2023-10-02T12:00:00" }

/-- The Kraków entry for station 2. -/
def histEntryK : HistoryEntry :=
  { station := { emptyStation with id := 2, cityName := "Kraków", name := "Stacja Kraków 1" }
    airQualityIndex := none, sensors := [], timestamp := "2023-10-01T12:00:00" }

/-- The sample history list. -/
def histSample : List HistoryEntry := [histEntryOldW, histEntryNewW, histEntryK]

/-! ### Helper lemmas -/

theorem string_append_ne (a b t : String) (c1 c2 : Char) (h1 : a.data.head? = some c1)
    (h2 : b.data.head? = some c2) (hne : c1 ≠ c2) : a ++ t ≠ b := by
  intro h
  have hd : a.data ++ t.data = b.data := congrArg String.data h
  cases ha : a.data with
  | nil => rw [ha] at h1; exact Option.noConfusion h1
  | cons x xs =>
    cases hb : b.data with
    | nil => rw [hb] at h2; exact Option.noConfusion h2
    | cons y ys =>
      rw [ha, hb] at hd
      rw [ha] at h1
      rw [hb] at h2
      simp only [List.head?] at h1 h2
      have hx : x = c1 := Option.some.inj h1
      have hy : y = c2 := Option.some.inj h2
      have hxy : x = y := by
        have h3 := congrArg List.head? hd
        simpa using h3
      exact hne (hx ▸ hy ▸ hxy)

theorem notFound_ne_transport (l : String) :
    "Nie znaleziono lokalizacji: " ++ l ≠ "Brak połączenia z internetem/bazą danych" :=
  string_append_ne _ _ _ 'N' 'B' (by decide) (by decide) (by decide)

theorem noCity_ne_transport (l : String) :
    "Nie znaleziono stacji w miejscowości " ++ l ≠ "Brak połączenia z internetem/bazą danych" :=
  string_append_ne _ _ _ 'N' 'B' (by decide) (by decide) (by decide)

theorem saveScan_none_of_saved (details : StationDetails) (fileH : List HistoryEntry)
    (now : String) (k : Int) :
    ∀ (l : List Station) (s : Station), firstWithId l k = some s → s.savedToHistory = true →
      saveScan details fileH now k l = none := by
  intro l
  induction l with
  | nil => intro s h _; simp [firstWithId] at h
  | cons a rest ih =>
    intro s h hs
    by_cases hid : a.id = k
    · have hsa : s = a := by
        simp [firstWithId, List.find?_cons, hid] at h
        exact h.symm
      subst hsa
      simp [saveScan, hid, hs]
    · have h2 : firstWithId rest k = some s := by
        simpa [firstWithId, List.find?_cons, hid] using h
      simp [saveScan, hid, ih s h2 hs]

theorem saveScan_none_of_absent (details : StationDetails) (fileH : List HistoryEntry)
    (now : String) (k : Int) :
    ∀ l : List Station, firstWithId l k = none → saveScan details fileH now k l = none := by
  intro l
  induction l with
  | nil => intro _; simp [saveScan]
  | cons a rest ih =>
    intro h
    by_cases hid : a.id = k
    · simp [firstWithId, List.find?_cons, hid] at h
    · have h2 : firstWithId rest k = none := by
        simpa [firstWithId, List.find?_cons, hid] using h
      simp [saveScan, hid, ih h2]

theorem saveScan_some_of_unsaved (details : StationDetails) (fileH : List HistoryEntry)
    (now : String) (k : Int) :
    ∀ (l : List Station) (s : Station), firstWithId l k = some s → s.savedToHistory = false →
      (saveScan details fileH now k l).isSome := by
  intro l
  induction l with
  | nil => intro s h _; simp [firstWithId] at h
  | cons a rest ih =>
    intro s h hs
    by_cases hid : a.id = k
    · have hsa : s = a := by
        simp [firstWithId, List.find?_cons, hid] at h
        exact h.symm
      subst hsa
      simp [saveScan, hid, hs]
    · have h2 : firstWithId rest k = some s := by
        simpa [firstWithId, List.find?_cons, hid] using h
      have hrec2 := ih s h2 hs
      rcases hrec : saveScan details fileH now k rest with _ | p
      · rw [hrec] at hrec2
        simp at hrec2
      · simp [saveScan, hid, hrec]

theorem saveScan_marks_saved (details : StationDetails) (fileH : List HistoryEntry)
    (now : String) (k : Int) :
    ∀ (l l2 : List Station) (h : List HistoryEntry),
      saveScan details fileH now k l = some (l2, h) →
      ∃ s : Station, firstWithId l2 k = some s ∧ s.savedToHistory = true := by
  intro l
  induction l with
  | nil => intro l2 h hscan; simp [saveScan] at hscan
  | cons a rest ih =>
    intro l2 h hscan
    by_cases hid : a.id = k
    · by_cases hsv : a.savedToHistory
      · simp [saveScan, hid, hsv] at hscan
      · simp [saveScan, hid, hsv] at hscan
        refine ⟨{ a with savedToHistory := true }, ?_, rfl⟩
        rw [← hscan.1]
        simp [firstWithId, List.find?_cons, hid]
    · rcases hrec : saveScan details fileH now k rest with _ | ⟨rest2, h2⟩
      · simp [saveScan, hid, hrec] at hscan
      · simp [saveScan, hid, hrec] at hscan
        obtain ⟨s, hfind, hs⟩ := ih rest2 h2 hrec
        refine ⟨s, ?_, hs⟩
        rw [← hscan.1]
        simpa [firstWithId, List.find?_cons, hid] using hfind

/-! ### Claim theorems -/

/-- C8: on every failed detail sub-response (sensor list, measurement, or
index), the slot emits the transport-error signal, issues no requests, and
leaves the whole detail state — including the pending counter — exactly as it
was (no rollback). -/
theorem failureLeavesState (st : AppState) :
    processSensorsReply st Reply.failure = (st, [], [Signal.networkErr])
    ∧ processDataReply st Reply.failure = (st, [], [Signal.networkErr])
    ∧ processIndexReply st Reply.failure = (st, [], [Signal.networkErr]) :=
  ⟨rfl, rfl, rfl⟩

/-- C10: saving a station to history by id is idempotent: when the first
station with the requested id is already flagged as saved, or when no station
has that id, the call changes nothing and emits nothing; and a second save of
the same id right after a first one is always a no-op. -/
theorem saveHistoryIdempotent (st : SaveState) (stationId : Int) (now now2 : String) :
    (∀ s : Station, firstWithId st.stations stationId = some s → s.savedToHistory = true →
      saveStationToHistory st stationId now = (st, []))
    ∧ (firstWithId st.stations stationId = none →
      saveStationToHistory st stationId now = (st, []))
    ∧ saveStationToHistory (saveStationToHistory st stationId now).1 stationId now2 =
        ((saveStationToHistory st stationId now).1, []) := by
  refine ⟨?_, ?_, ?_⟩
  · intro s hfind hsv
    unfold saveStationToHistory
    rw [saveScan_none_of_saved st.stationDetails st.historyFile now stationId st.stations s hfind hsv]
  · intro hnone
    unfold saveStationToHistory
    rw [saveScan_none_of_absent st.stationDetails st.historyFile now stationId st.stations hnone]
  · rcases hscan : saveScan st.stationDetails st.historyFile now stationId st.stations
      with _ | ⟨stations2, newHist⟩
    · have hst : saveStationToHistory st stationId now = (st, []) := by
        unfold saveStationToHistory
        rw [hscan]
      rw [hst]
      show saveStationToHistory st stationId now2 = (st, [])
      have hnone2 : saveScan st.stationDetails st.historyFile now2 stationId st.stations = none := by
        rcases hf : firstWithId st.stations stationId with _ | s
        · exact saveScan_none_of_absent _ _ now2 _ _ hf
        · by_cases hsv : s.savedToHistory
          · exact saveScan_none_of_saved _ _ now2 _ _ s hf hsv
          · exfalso
            have hsome := saveScan_some_of_unsaved st.stationDetails st.historyFile now stationId
              st.stations s hf (by simpa using hsv)
            rw [hscan] at hsome
            simp at hsome
      unfold saveStationToHistory
      rw [hnone2]
    · have hfirst : saveStationToHistory st stationId now =
          ({ st with stations := stations2, history := newHist, historyFile := newHist },
           [Signal.historyChangedSig, Signal.stationsChangedSig]) := by
        unfold saveStationToHistory
        rw [hscan]
      obtain ⟨s, hfind, hsv⟩ :=
        saveScan_marks_saved st.stationDetails st.historyFile now stationId st.stations
          stations2 newHist hscan
      rw [hfirst]
      show saveStationToHistory
        { st with stations := stations2, history := newHist, historyFile := newHist }
        stationId now2 = _
      unfold saveStationToHistory
      rw [saveScan_none_of_saved _ _ now2 stationId stations2 s hfind hsv]

/-- C10 witness: with a single already-saved station in the list, the save
call is a no-op. -/
theorem saveHistoryIdempotent_witness :
    saveStationToHistory saveStateSample 5 "t" = (saveStateSample, []) :=
  (saveHistoryIdempotent saveStateSample 5 "t" "t").1 savedStationSample (by decide) (by decide)

/-- C9 counterexample: when the geocoding step of a nearest search fails, the
entry point does not reset the prior user-location, user-address, or
from-history state — starting from a history-flagged state with a stale
address, the failed call keeps all of them. -/
theorem nearestFailureNotReset :
    (fetchNearestStation
        { result := "x", userLocation := some (1, 2), userAddress := "stare"
          isFromHistory := true }
        "Testowa" GeoResponse.transportFailure).1 =
      { result := "Nie znaleziono lokalizacji: " ++ "Testowa"
        userLocation := some (1, 2), userAddress := "stare", isFromHistory := true } := by
  decide

/-- C9 (amended): `fetchAllStations` and `fetchStationsByCity` always reset
the user-location/address/result/history-flag state before issuing their
request, and `fetchNearestStation` does so only when geocoding succeeds; on a
geocoding failure it only overwrites the result message and leaves the other
three fields as they were. -/
theorem searchEntryReset (st : SearchState) (city location : String) (resp : GeoResponse) :
    (fetchAllStations st).1 =
      { result := "", userLocation := none, userAddress := "", isFromHistory := false }
    ∧ (fetchStationsByCity st city).1 =
      { result := city, userLocation := none, userAddress := "", isFromHistory := false }
    ∧ (∀ c : ℚ × ℚ, getLocationCoords resp = some c →
        (fetchNearestStation st location resp).1 =
          { result := formatArgDouble c.1 ++ " " ++ formatArgDouble c.2
            userLocation := some c, userAddress := location, isFromHistory := false })
    ∧ (getLocationCoords resp = none →
        (fetchNearestStation st location resp).1 =
          { st with result := "Nie znaleziono lokalizacji: " ++ location }) := by
  refine ⟨rfl, rfl, ?_, ?_⟩
  · intro c hc
    unfold fetchNearestStation
    rw [hc]
  · intro hc
    unfold fetchNearestStation
    rw [hc]

/-- C9 witness: a successful nearest search from the empty session state
resets every field. -/
theorem searchEntryReset_witness :
    (fetchNearestStation
        { result := "", userLocation := none, userAddress := "", isFromHistory := false }
        "Adres" (GeoResponse.ok [JVal.jobj [("lat", JVal.jstr "52"), ("lon", JVal.jstr "21")]])).1 =
      { result := formatArgDouble (52 : ℚ) ++ " " ++ formatArgDouble (21 : ℚ)
        userLocation := some ((52 : ℚ), (21 : ℚ)), userAddress := "Adres"
        isFromHistory := false } :=
  (searchEntryReset
      { result := "", userLocation := none, userAddress := "", isFromHistory := false }
      "" "Adres" (GeoResponse.ok [JVal.jobj [("lat", JVal.jstr "52"), ("lon", JVal.jstr "21")]])).2.2.1
    ((52 : ℚ), (21 : ℚ)) (by decide)

/-- C3 counterexample: a geocoding provider error and an empty geocoding
result set are both "location not found" cases, yet `fetchNearestStation`
emits the transport-error signal `networkError` for them, so not-found is
signalled as a transport error. -/
theorem notFoundEmitsNetworkError :
    getLocationCoords GeoResponse.transportFailure = none
    ∧ getLocationCoords (GeoResponse.ok []) = none
    ∧ Signal.networkErr ∈
        (fetchNearestStation
          { result := "", userLocation := none, userAddress := "", isFromHistory := false }
          "Polna 1" GeoResponse.transportFailure).2.1
    ∧ Signal.networkErr ∈
        (fetchNearestStation
          { result := "", userLocation := none, userAddress := "", isFromHistory := false }
          "Polna 1" (GeoResponse.ok [])).2.1 := by
  refine ⟨rfl, rfl, ?_, ?_⟩ <;> decide

/-- C3 (amended): on a geocoding provider error or an empty result set, the
nearest-station search sets the dedicated "location not found" message —
which is distinct from the fixed transport-failure message — and issues no
station request, but it also emits the shared `networkError` signal, so at the
signal level not-found is not kept apart from transport failure. -/
theorem notFoundOutcome (st : SearchState) (location : String) (resp : GeoResponse)
    (h : resp = GeoResponse.transportFailure ∨ resp = GeoResponse.ok []) :
    (fetchNearestStation st location resp).1.result = "Nie znaleziono lokalizacji: " ++ location
    ∧ (fetchNearestStation st location resp).1.result ≠ "Brak połączenia z internetem/bazą danych"
    ∧ (fetchNearestStation st location resp).2.1 = [Signal.resultChangedSig, Signal.networkErr]
    ∧ (fetchNearestStation st location resp).2.2 = [] := by
  have hc : getLocationCoords resp = none := by
    rcases h with h | h <;> rw [h] <;> rfl
  have hfn : fetchNearestStation st location resp =
      ({ st with result := "Nie znaleziono lokalizacji: " ++ location },
       [Signal.resultChangedSig, Signal.networkErr], []) := by
    unfold fetchNearestStation
    rw [hc]
  rw [hfn]
  exact ⟨rfl, notFound_ne_transport location, rfl, rfl⟩

/-- C3 witness: the amended statement at a concrete failed lookup. -/
theorem notFoundOutcome_witness :
    (fetchNearestStation
        { result := "", userLocation := none, userAddress := "", isFromHistory := false }
        "Polna 2" (GeoResponse.ok [])).1.result = "Nie znaleziono lokalizacji: " ++ "Polna 2"
    ∧ (fetchNearestStation
        { result := "", userLocation := none, userAddress := "", isFromHistory := false }
        "Polna 2" (GeoResponse.ok [])).1.result ≠ "Brak połączenia z internetem/bazą danych"
    ∧ (fetchNearestStation
        { result := "", userLocation := none, userAddress := "", isFromHistory := false }
        "Polna 2" (GeoResponse.ok [])).2.1 = [Signal.resultChangedSig, Signal.networkErr]
    ∧ (fetchNearestStation
        { result := "", userLocation := none, userAddress := "", isFromHistory := false }
        "Polna 2" (GeoResponse.ok [])).2.2 = [] :=
  notFoundOutcome
    { result := "", userLocation := none, userAddress := "", isFromHistory := false }
    "Polna 2" (GeoResponse.ok []) (Or.inr rfl)

theorem selectionMode_eq_city (r : String) (hne : r ≠ "") (hsp : containsSpace r = false) :
    selectionMode r = Mode.cityMode := by
  have h1 : ¬ (r.isEmpty = true) := fun h => hne ((String.isEmpty_iff r).mp h)
  simp [selectionMode, h1, hsp]

theorem selectionMode_eq_nearest_iff (r : String) :
    selectionMode r = Mode.nearestMode ↔ (r ≠ "" ∧ containsSpace r = true) := by
  by_cases h1 : r.isEmpty
  · have hr : r = "" := (String.isEmpty_iff r).mp h1
    subst hr
    decide
  · have hf1 : r.isEmpty = false := by simpa using h1
    have hne : r ≠ "" := fun he => h1 ((String.isEmpty_iff r).mpr he)
    by_cases h2 : containsSpace r
    · simp [selectionMode, hf1, h2, hne]
    · have h2f : containsSpace r = false := by simpa using h2
      simp [selectionMode, hf1, h2f, hne]

theorem processStationsReply_cityBranch (stations0 : List StationEntry) (body : JVal)
    (city : String) (hmode : selectionMode city = Mode.cityMode) :
    processStationsReply { result := city, stations := stations0 } (Reply.success body) =
      (if ((parseStations body.toArray).filter (fun e => e.station.cityName = city)).isEmpty then
        ({ result := "Nie znaleziono stacji w miejscowości " ++ city
           stations := (parseStations body.toArray).filter (fun e => e.station.cityName = city) },
         [Signal.stationsChangedSig, Signal.resultChangedSig])
      else
        ({ result := ""
           stations := (parseStations body.toArray).filter (fun e => e.station.cityName = city) },
         [Signal.stationsChangedSig, Signal.resultChangedSig])) := by
  simp only [processStationsReply]
  rw [hmode]

/-- C4: with a non-empty stored query containing no space, the catalog reply
is processed in by-city mode: the resulting station list is exactly the
normalized stations whose `cityName` equals the query (case-sensitive), a
zero-match query surfaces the "no stations in city" message — distinct from
the transport-failure message, with no `networkError` emitted — and a
non-empty match clears the message. -/
theorem cityModeFilter (st : CatalogState) (body : JVal) (city : String)
    (hcity : st.result = city) (hne : city ≠ "") (hsp : containsSpace city = false) :
    selectionMode st.result = Mode.cityMode
    ∧ (processStationsReply st (Reply.success body)).1.stations =
        (parseStations body.toArray).filter (fun e => e.station.cityName = city)
    ∧ ((parseStations body.toArray).filter (fun e => e.station.cityName = city) = [] →
        (processStationsReply st (Reply.success body)).1.result =
          "Nie znaleziono stacji w miejscowości " ++ city
        ∧ (processStationsReply st (Reply.success body)).1.result ≠
            "Brak połączenia z internetem/bazą danych")
    ∧ ((parseStations body.toArray).filter (fun e => e.station.cityName = city) ≠ [] →
        (processStationsReply st (Reply.success body)).1.result = "")
    ∧ (processStationsReply st (Reply.success body)).2 =
        [Signal.stationsChangedSig, Signal.resultChangedSig] := by
  obtain ⟨res, stations0⟩ := st
  have hres : res = city := hcity
  subst hres
  have hmode : selectionMode res = Mode.cityMode := selectionMode_eq_city res hne hsp
  have hred := processStationsReply_cityBranch stations0 body res hmode
  by_cases hemp : ((parseStations body.toArray).filter (fun e => e.station.cityName = res)).isEmpty
  · rw [if_pos hemp] at hred
    rw [hred]
    refine ⟨hmode, rfl, fun _ => ⟨rfl, noCity_ne_transport res⟩, fun hnonnil => ?_, rfl⟩
    exact absurd (List.isEmpty_iff.mp hemp) hnonnil
  · rw [if_neg hemp] at hred
    rw [hred]
    refine ⟨hmode, rfl, fun hnil => ?_, fun _ => rfl, rfl⟩
    exact absurd (List.isEmpty_iff.mpr hnil) hemp

/-- C4 witness: querying "Warszawa" over a list holding one Warszawa and one
Kraków station keeps exactly the Warszawa one and clears the message. -/
theorem cityModeFilter_witness :
    (processStationsReply { result := "Warszawa", stations := [] }
        (Reply.success cityBodySample)).1.stations =
      (parseStations cityBodySample.toArray).filter
        (fun e => e.station.cityName = "Warszawa") :=
  (cityModeFilter { result := "Warszawa", stations := [] } cityBodySample "Warszawa"
    rfl (by decide) (by decide)).2.1

/-- C2 counterexample: a stored query that is not two space-separated numeric
tokens (a city name containing a space) nevertheless triggers the
nearest-station branch, so the claimed "exactly when" trigger is wrong. -/
theorem nearestTriggerNotNumeric :
    selectionMode "Nowy Targ" = Mode.nearestMode
    ∧ specTwoNumericTokens "Nowy Targ" = false := by
  constructor
  · rfl
  · decide

theorem parseStationRecord_eq_none_iff (v : JVal) :
    parseStationRecord v = none ↔
      ((jfield v.toObject "id").isNull = true ∨ (jfield v.toObject "gegrLat").isNull = true
        ∨ (jfield v.toObject "gegrLon").isNull = true
        ∨ parseDecimal (jfield v.toObject "gegrLat").toString = none
        ∨ parseDecimal (jfield v.toObject "gegrLon").toString = none) := by
  unfold parseStationRecord
  by_cases hA : ((jfield v.toObject "id").isNull = true
      ∨ (jfield v.toObject "gegrLat").isNull = true
      ∨ (jfield v.toObject "gegrLon").isNull = true)
  · rw [if_pos hA]
    simp only [true_iff, eq_self_iff_true]
    exact Or.imp id (Or.imp id (fun h => Or.inl h)) hA
  · rw [if_neg hA]
    push_neg at hA
    obtain ⟨h1, h2, h3⟩ := hA
    rcases hlat : parseDecimal (jfield v.toObject "gegrLat").toString with _ | lat
    · simp [h1, h2, h3, hlat]
    · rcases hlon : parseDecimal (jfield v.toObject "gegrLon").toString with _ | lon
      · simp [h1, h2, h3, hlat, hlon]
      · simp [h1, h2, h3, hlat, hlon]

theorem parseStationRecord_some_fields (v : JVal) (s : StationEntry)
    (hp : parseStationRecord v = some s) :
    parseDecimal (jfield v.toObject "gegrLat").toString = some s.station.lat
    ∧ parseDecimal (jfield v.toObject "gegrLon").toString = some s.station.lon
    ∧ s.station.cityName = (jfield (jfield v.toObject "city").toObject "name").toString
    ∧ s.station.communeName =
        (jfield (jfield (jfield v.toObject "city").toObject "commune").toObject "communeName").toString
    ∧ s.station.districtName =
        (jfield (jfield (jfield v.toObject "city").toObject "commune").toObject "districtName").toString
    ∧ s.station.provinceName =
        (jfield (jfield (jfield v.toObject "city").toObject "commune").toObject "provinceName").toString := by
  unfold parseStationRecord at hp
  by_cases hA : ((jfield v.toObject "id").isNull = true
      ∨ (jfield v.toObject "gegrLat").isNull = true
      ∨ (jfield v.toObject "gegrLon").isNull = true)
  · rw [if_pos hA] at hp
    exact Option.noConfusion hp
  · rw [if_neg hA] at hp
    rcases hlat : parseDecimal (jfield v.toObject "gegrLat").toString with _ | lat
    · rw [hlat] at hp
      exact Option.noConfusion hp
    · rcases hlon : parseDecimal (jfield v.toObject "gegrLon").toString with _ | lon
      · rw [hlat, hlon] at hp
        exact Option.noConfusion hp
      · rw [hlat, hlon] at hp
        have hs := Option.some.inj hp
        subst hs
        refine ⟨?_, ?_, ?_, ?_, ?_, ?_⟩ <;> simp [hlat, hlon]

/-- C7: the station parser requires non-null `id`, `gegrLat`, `gegrLon` and
drops a record whose latitude or longitude does not parse as a decimal string
(so a record with `id` present but `gegrLat` unparsable adds zero stations);
an absent nested city/commune object yields empty strings instead of an
error; and every station in the parsed output carries a latitude and a
longitude obtained from a successful decimal parse of its raw record. -/
theorem parseStationsValid :
    (∀ v : JVal, parseStationRecord v = none ↔
      ((jfield v.toObject "id").isNull = true ∨ (jfield v.toObject "gegrLat").isNull = true
        ∨ (jfield v.toObject "gegrLon").isNull = true
        ∨ parseDecimal (jfield v.toObject "gegrLat").toString = none
        ∨ parseDecimal (jfield v.toObject "gegrLon").toString = none))
    ∧ (∀ (v : JVal) (s : StationEntry), parseStationRecord v = some s →
        jfield v.toObject "city" = JVal.undef →
        s.station.cityName = "" ∧ s.station.communeName = ""
          ∧ s.station.districtName = "" ∧ s.station.provinceName = "")
    ∧ (∀ (raws : List JVal) (s : StationEntry), s ∈ parseStations raws →
        ∃ v ∈ raws, parseStationRecord v = some s
          ∧ parseDecimal (jfield v.toObject "gegrLat").toString = some s.station.lat
          ∧ parseDecimal (jfield v.toObject "gegrLon").toString = some s.station.lon) := by
  refine ⟨parseStationRecord_eq_none_iff, ?_, ?_⟩
  · intro v s hp hc
    obtain ⟨_, _, hcity, hcommune, hdistrict, hprovince⟩ := parseStationRecord_some_fields v s hp
    rw [hc] at hcity hcommune hdistrict hprovince
    exact ⟨hcity, hcommune, hdistrict, hprovince⟩
  · intro raws s hs
    obtain ⟨v, hv, hp⟩ := List.mem_filterMap.mp hs
    obtain ⟨hlat, hlon, _⟩ := parseStationRecord_some_fields v s hp
    exact ⟨v, hv, hp, hlat, hlon⟩

/-- C7 witness: the record with `id` present but unparsable `gegrLat` is
dropped. -/
theorem parseStationsValid_witness : parseStationRecord badLatRecord = none :=
  (parseStationsValid.1 badLatRecord).mpr
    (Or.inr (Or.inr (Or.inr (Or.inl (by decide)))))

theorem tsGT_iff (a b : String) : tsGT a b = true ↔ tsKey b < tsKey a := by
  unfold tsGT tsKey
  rcases ha : parseISODate a with _ | x
  · rcases hb : parseISODate b with _ | y <;> simp
  · rcases hb : parseISODate b with _ | y <;> simp

theorem qmapLookup_eq_none_iff (m : List (Int × HistoryEntry)) (k : Int) :
    qmapLookup m k = none ↔ ∀ p ∈ m, p.1 ≠ k := by
  unfold qmapLookup
  simp [List.find?_eq_none]

theorem qmapLookup_mem (m : List (Int × HistoryEntry)) (k : Int) (v : HistoryEntry)
    (h : qmapLookup m k = some v) : (k, v) ∈ m := by
  unfold qmapLookup at h
  obtain ⟨p, hfind, hv⟩ := Option.map_eq_some'.mp h
  have hmem := List.mem_of_find?_eq_some hfind
  have hkey := List.find?_some hfind
  obtain ⟨p1, p2⟩ := p
  have h1 : p1 = k := by simpa using hkey
  have h2 : p2 = v := hv
  rw [← h1, ← h2]
  exact hmem

theorem qmapInsert_nil (k : Int) (v : HistoryEntry) : qmapInsert [] k v = [(k, v)] := rfl

theorem qmapInsert_cons_lt (k k2 : Int) (v v2 : HistoryEntry) (rest : List (Int × HistoryEntry))
    (h : k < k2) : qmapInsert ((k2, v2) :: rest) k v = (k, v) :: (k2, v2) :: rest := by
  simp only [qmapInsert]
  rw [if_pos h]

theorem qmapInsert_cons_eq (k k2 : Int) (v v2 : HistoryEntry) (rest : List (Int × HistoryEntry))
    (h : k = k2) : qmapInsert ((k2, v2) :: rest) k v = (k, v) :: rest := by
  simp only [qmapInsert]
  rw [if_neg (by omega), if_pos h]

theorem qmapInsert_cons_gt (k k2 : Int) (v v2 : HistoryEntry) (rest : List (Int × HistoryEntry))
    (h : k2 < k) : qmapInsert ((k2, v2) :: rest) k v = (k2, v2) :: qmapInsert rest k v := by
  simp only [qmapInsert]
  rw [if_neg (by omega), if_neg (by omega)]

theorem qmapInsert_keys (m : List (Int × HistoryEntry)) (k : Int) (v : HistoryEntry) :
    ∀ a ∈ (qmapInsert m k v).map Prod.fst, a = k ∨ a ∈ m.map Prod.fst := by
  induction m with
  | nil =>
    intro a ha
    rw [qmapInsert_nil] at ha
    exact Or.inl (by simpa using ha)
  | cons p rest ih =>
    obtain ⟨k2, v2⟩ := p
    intro a ha
    rcases lt_trichotomy k k2 with h1 | h1 | h1
    · rw [qmapInsert_cons_lt k k2 v v2 rest h1] at ha
      simpa using ha
    · rw [qmapInsert_cons_eq k k2 v v2 rest h1] at ha
      rcases (by simpa using ha : a = k ∨ a ∈ rest.map Prod.fst) with h | h
      · exact Or.inl h
      · exact Or.inr (by simp [h])
    · rw [qmapInsert_cons_gt k k2 v v2 rest h1] at ha
      rcases (by simpa using ha : a = k2 ∨ a ∈ (qmapInsert rest k v).map Prod.fst) with h | h
      · exact Or.inr (by simp [h])
      · rcases ih a h with h3 | h3
        · exact Or.inl h3
        · exact Or.inr (by simp [h3])

theorem qmapInsert_sorted (m : List (Int × HistoryEntry)) (k : Int) (v : HistoryEntry)
    (hs : (m.map Prod.fst).Sorted (fun a b => a < b)) :
    ((qmapInsert m k v).map Prod.fst).Sorted (fun a b => a < b) := by
  induction m with
  | nil => simp [qmapInsert_nil]
  | cons p rest ih =>
    obtain ⟨k2, v2⟩ := p
    rw [List.map_cons, List.sorted_cons] at hs
    obtain ⟨hk2, hrest⟩ := hs
    rcases lt_trichotomy k k2 with h1 | h1 | h1
    · rw [qmapInsert_cons_lt k k2 v v2 rest h1, List.map_cons, List.sorted_cons]
      refine ⟨?_, ?_⟩
      · intro b hb
        rcases (by simpa using hb : b = k2 ∨ b ∈ rest.map Prod.fst) with h | h
        · subst h; exact h1
        · exact lt_trans h1 (hk2 b h)
      · rw [List.map_cons, List.sorted_cons]
        exact ⟨hk2, hrest⟩
    · rw [qmapInsert_cons_eq k k2 v v2 rest h1, List.map_cons, List.sorted_cons]
      subst h1
      exact ⟨hk2, hrest⟩
    · rw [qmapInsert_cons_gt k k2 v v2 rest h1, List.map_cons, List.sorted_cons]
      refine ⟨?_, ih hrest⟩
      intro b hb
      rcases qmapInsert_keys rest k v b hb with h | h
      · subst h; exact h1
      · exact hk2 b h

theorem mem_qmapInsert (m : List (Int × HistoryEntry)) (k : Int) (v : HistoryEntry)
    (hs : (m.map Prod.fst).Sorted (fun a b => a < b)) (p : Int × HistoryEntry) :
    p ∈ qmapInsert m k v ↔ p = (k, v) ∨ (p ∈ m ∧ p.1 ≠ k) := by
  induction m with
  | nil => simp [qmapInsert_nil]
  | cons q rest ih =>
    obtain ⟨k2, v2⟩ := q
    rw [List.map_cons, List.sorted_cons] at hs
    obtain ⟨hk2, hrest⟩ := hs
    have hrestk : ∀ r ∈ rest, k2 < r.1 := fun r hr => hk2 r.1 (List.mem_map_of_mem Prod.fst hr)
    rcases lt_trichotomy k k2 with h1 | h1 | h1
    · rw [qmapInsert_cons_lt k k2 v v2 rest h1]
      simp only [List.mem_cons]
      constructor
      · rintro (h | h | h)
        · exact Or.inl h
        · refine Or.inr ⟨Or.inl h, ?_⟩
          rw [h]
          simp only [ne_eq]
          omega
        · refine Or.inr ⟨Or.inr h, ?_⟩
          have := hrestk p h
          omega
      · rintro (h | ⟨hmem, _⟩)
        · exact Or.inl h
        · exact Or.inr hmem
    · rw [qmapInsert_cons_eq k k2 v v2 rest h1]
      simp only [List.mem_cons]
      constructor
      · rintro (h | h)
        · exact Or.inl h
        · refine Or.inr ⟨Or.inr h, ?_⟩
          have := hrestk p h
          omega
      · rintro (h | ⟨hmem, hne⟩)
        · exact Or.inl h
        · rcases hmem with h | h
          · exfalso
            apply hne
            rw [h, h1]
          · exact Or.inr h
    · rw [qmapInsert_cons_gt k k2 v v2 rest h1]
      simp only [List.mem_cons]
      rw [ih hrest]
      constructor
      · rintro (h | h | ⟨hmem, hne⟩)
        · refine Or.inr ⟨Or.inl h, ?_⟩
          rw [h]
          simp only [ne_eq]
          omega
        · exact Or.inl h
        · exact Or.inr ⟨Or.inr hmem, hne⟩
      · rintro (h | ⟨hmem, hne⟩)
        · exact Or.inr (Or.inl h)
        · rcases hmem with h | h
          · exact Or.inl h
          · exact Or.inr (Or.inr ⟨h, hne⟩)

theorem qmap_key_unique :
    ∀ (m : List (Int × HistoryEntry)), (m.map Prod.fst).Nodup →
      ∀ p ∈ m, ∀ q ∈ m, p.1 = q.1 → p = q := by
  intro m
  induction m with
  | nil => intro _ p hp; simp at hp
  | cons a rest ih =>
    intro hnd p hp q hq hpq
    rw [List.map_cons, List.nodup_cons] at hnd
    obtain ⟨hak, hrest⟩ := hnd
    rcases List.mem_cons.mp hp with hp1 | hp1 <;> rcases List.mem_cons.mp hq with hq1 | hq1
    · rw [hp1, hq1]
    · exfalso
      apply hak
      rw [hp1] at hpq
      rw [hpq]
      exact List.mem_map_of_mem Prod.fst hq1
    · exfalso
      apply hak
      rw [hq1] at hpq
      rw [← hpq]
      exact List.mem_map_of_mem Prod.fst hp1
    · exact ih hrest p hp1 q hq1 hpq

theorem sorted_keys_nodup (m : List (Int × HistoryEntry))
    (hs : (m.map Prod.fst).Sorted (fun a b => a < b)) : (m.map Prod.fst).Nodup :=
  hs.imp (fun h => ne_of_lt h)

theorem historyScanInv_step (city : String) (seen : List HistoryEntry)
    (m : List (Int × HistoryEntry)) (e : HistoryEntry)
    (hInv : historyScanInv city seen m) :
    historyScanInv city (seen ++ [e]) (historyScanStep city m e) := by
  obtain ⟨hPairs, hSorted, hIds⟩ := hInv
  unfold historyScanStep
  by_cases hm : qStringLower e.station.cityName = qStringLower city
  case neg =>
    rw [if_neg hm]
    refine ⟨?_, hSorted, ?_⟩
    · intro p hp
      obtain ⟨hmem, hmatch, hid, hmax⟩ := hPairs p hp
      refine ⟨List.mem_append_left _ hmem, hmatch, hid, ?_⟩
      intro e2 he2 hm2 hid2
      rcases List.mem_append.mp he2 with h | h
      · exact hmax e2 h hm2 hid2
      · exact absurd hm2 (by simpa [matchesCity, List.eq_of_mem_singleton h] using hm)
    · intro e2 he2 hm2
      rcases List.mem_append.mp he2 with h | h
      · exact hIds e2 h hm2
      · exact absurd hm2 (by simpa [matchesCity, List.eq_of_mem_singleton h] using hm)
  case pos =>
    rw [if_pos hm]
    rcases hl : qmapLookup m e.station.id with _ | existing
    · show historyScanInv city (seen ++ [e]) (qmapInsert m e.station.id e)
      have hnone : ∀ p ∈ m, p.1 ≠ e.station.id := (qmapLookup_eq_none_iff m _).mp hl
      have hnoseen : ∀ e2 ∈ seen, matchesCity city e2 → e2.station.id ≠ e.station.id := by
        intro e2 he2 hm2 heq
        obtain ⟨p, hp, hpk⟩ := hIds e2 he2 hm2
        exact hnone p hp (hpk.trans heq)
      refine ⟨?_, qmapInsert_sorted m _ e hSorted, ?_⟩
      · intro p hp
        rcases (mem_qmapInsert m _ e hSorted p).mp hp with hpe | ⟨hpm, hpk⟩
        · subst hpe
          refine ⟨List.mem_append_right _ (List.mem_singleton_self e), hm, rfl, ?_⟩
          intro e2 he2 hm2 hid2
          rcases List.mem_append.mp he2 with h | h
          · exact absurd hid2 (hnoseen e2 h hm2)
          · rw [List.eq_of_mem_singleton h]
            exact lt_irrefl _
        · obtain ⟨hmem, hmatch, hid, hmax⟩ := hPairs p hpm
          refine ⟨List.mem_append_left _ hmem, hmatch, hid, ?_⟩
          intro e2 he2 hm2 hid2
          rcases List.mem_append.mp he2 with h | h
          · exact hmax e2 h hm2 hid2
          · have he2e : e2 = e := List.eq_of_mem_singleton h
            subst he2e
            exact absurd hid2.symm hpk
      · intro e2 he2 hm2
        rcases List.mem_append.mp he2 with h | h
        · obtain ⟨p, hp, hpk⟩ := hIds e2 h hm2
          refine ⟨p, ?_, hpk⟩
          exact (mem_qmapInsert m _ e hSorted p).mpr
            (Or.inr ⟨hp, fun hk => hnoseen e2 h hm2 (hpk.symm.trans hk)⟩)
        · refine ⟨(e.station.id, e), ?_, ?_⟩
          · exact (mem_qmapInsert m _ e hSorted _).mpr (Or.inl rfl)
          · rw [List.eq_of_mem_singleton h]
    · show historyScanInv city (seen ++ [e])
        (if tsGT e.timestamp existing.timestamp = true then qmapInsert m e.station.id e else m)
      have hmem0 : (e.station.id, existing) ∈ m := qmapLookup_mem m _ existing hl
      obtain ⟨hemem, hematch, heid, hemax⟩ := hPairs _ hmem0
      by_cases hgt : tsGT e.timestamp existing.timestamp
      · rw [if_pos hgt]
        have hkey : tsKey existing.timestamp < tsKey e.timestamp := (tsGT_iff _ _).mp hgt
        refine ⟨?_, qmapInsert_sorted m _ e hSorted, ?_⟩
        · intro p hp
          rcases (mem_qmapInsert m _ e hSorted p).mp hp with hpe | ⟨hpm, hpk⟩
          · subst hpe
            refine ⟨List.mem_append_right _ (List.mem_singleton_self e), hm, rfl, ?_⟩
            intro e2 he2 hm2 hid2
            rcases List.mem_append.mp he2 with h | h
            · intro hlt
              have hle : tsKey e2.timestamp ≤ tsKey existing.timestamp :=
                not_lt.mp (hemax e2 h hm2 hid2)
              exact absurd (lt_of_lt_of_le hlt hle) (not_lt.mpr (le_of_lt hkey))
            · rw [List.eq_of_mem_singleton h]
              exact lt_irrefl _
          · obtain ⟨hmem, hmatch, hid, hmax⟩ := hPairs p hpm
            refine ⟨List.mem_append_left _ hmem, hmatch, hid, ?_⟩
            intro e2 he2 hm2 hid2
            rcases List.mem_append.mp he2 with h | h
            · exact hmax e2 h hm2 hid2
            · exfalso
              apply hpk
              rw [← hid2, List.eq_of_mem_singleton h]
        · intro e2 he2 hm2
          by_cases hk : e2.station.id = e.station.id
          · refine ⟨(e.station.id, e), (mem_qmapInsert m _ e hSorted _).mpr (Or.inl rfl), hk.symm⟩
          · rcases List.mem_append.mp he2 with h | h
            · obtain ⟨p, hp, hpk⟩ := hIds e2 h hm2
              refine ⟨p, (mem_qmapInsert m _ e hSorted p).mpr
                (Or.inr ⟨hp, fun hke => hk (hpk.symm.trans hke)⟩), hpk⟩
            · exact absurd (congrArg (fun x => x.station.id) (List.eq_of_mem_singleton h)) hk
      · rw [if_neg hgt]
        have hnkey : ¬ (tsKey existing.timestamp < tsKey e.timestamp) :=
          fun hc => hgt ((tsGT_iff _ _).mpr hc)
        refine ⟨?_, hSorted, ?_⟩
        · intro p hp
          obtain ⟨hmem, hmatch, hid, hmax⟩ := hPairs p hp
          refine ⟨List.mem_append_left _ hmem, hmatch, hid, ?_⟩
          intro e2 he2 hm2 hid2
          rcases List.mem_append.mp he2 with h | h
          · exact hmax e2 h hm2 hid2
          · have he2e : e2 = e := List.eq_of_mem_singleton h
            subst he2e
            have hpe : p = (e2.station.id, existing) := by
              apply qmap_key_unique m (sorted_keys_nodup m hSorted) p hp _ hmem0
              rw [hid2]
            rw [hpe]
            exact hnkey
        · intro e2 he2 hm2
          rcases List.mem_append.mp he2 with h | h
          · exact hIds e2 h hm2
          · refine ⟨(e.station.id, existing), hmem0, ?_⟩
            rw [List.eq_of_mem_singleton h]

theorem historyScanInv_foldl (city : String) :
    ∀ (l seen : List HistoryEntry) (m : List (Int × HistoryEntry)),
      historyScanInv city seen m →
      historyScanInv city (seen ++ l) (l.foldl (historyScanStep city) m) := by
  intro l
  induction l with
  | nil => intro seen m h; simpa using h
  | cons e rest ih =>
    intro seen m h
    have h2 := historyScanInv_step city seen m e h
    have h3 := ih (seen ++ [e]) (historyScanStep city m e) h2
    simpa [List.append_assoc] using h3

theorem historyScan_all_skipped (city : String) :
    ∀ (l : List HistoryEntry) (m : List (Int × HistoryEntry)),
      (∀ e ∈ l, qStringLower e.station.cityName ≠ qStringLower city) →
      l.foldl (historyScanStep city) m = m := by
  intro l
  induction l with
  | nil => intro m _; rfl
  | cons e rest ih =>
    intro m h
    have he : qStringLower e.station.cityName ≠ qStringLower city := h e (by simp)
    have hstep : historyScanStep city m e = m := by
      unfold historyScanStep
      rw [if_neg he]
    rw [List.foldl_cons, hstep]
    exact ih m (fun e2 he2 => h e2 (by simp [he2]))

/-- C5: the per-city history query matches `cityName` case-insensitively (a
query differing only in case yields the same result); every returned entry is
a matching entry of the history; a city with no matching entries yields the
empty result; there is at most one result entry per station id; and no
matching history entry with the same station id has a timestamp that beats a
returned entry's timestamp (an unparsable timestamp loses any comparison). -/
theorem entriesForCityLatest (history : List HistoryEntry) (city : String) :
    (∀ c1 c2 : String, qStringLower c1 = qStringLower c2 →
        getStationsForCity history c1 = getStationsForCity history c2)
    ∧ (∀ e ∈ getStationsForCity history city,
        e ∈ history ∧ qStringLower e.station.cityName = qStringLower city)
    ∧ ((∀ e ∈ history, qStringLower e.station.cityName ≠ qStringLower city) →
        getStationsForCity history city = [])
    ∧ ((getStationsForCity history city).map (fun e => e.station.id)).Nodup
    ∧ (∀ e ∈ getStationsForCity history city, ∀ e2 ∈ history,
        qStringLower e2.station.cityName = qStringLower city →
        e2.station.id = e.station.id → tsGT e2.timestamp e.timestamp = false) := by
  have hInv : historyScanInv city history (history.foldl (historyScanStep city) []) := by
    have h0 : historyScanInv city [] [] := by
      refine ⟨?_, ?_, ?_⟩ <;> simp [historyScanInv]
    simpa using historyScanInv_foldl city history [] [] h0
  obtain ⟨hPairs, hSorted, _⟩ := hInv
  refine ⟨?_, ?_, ?_, ?_, ?_⟩
  · intro c1 c2 hc
    unfold getStationsForCity
    have hstep : historyScanStep c1 = historyScanStep c2 := by
      funext m e
      unfold historyScanStep
      rw [hc]
    rw [hstep]
  · intro e he
    obtain ⟨p, hp, hpe⟩ := List.mem_map.mp he
    obtain ⟨hmem, hmatch, _, _⟩ := hPairs p hp
    rw [← hpe]
    exact ⟨hmem, hmatch⟩
  · intro hnone
    unfold getStationsForCity
    rw [historyScan_all_skipped city history [] hnone]
    rfl
  · have h1 : (getStationsForCity history city).map (fun e => e.station.id) =
        (history.foldl (historyScanStep city) []).map (fun p => p.2.station.id) := by
      unfold getStationsForCity
      rw [List.map_map]
      rfl
    have h2 : (history.foldl (historyScanStep city) []).map (fun p => p.2.station.id) =
        (history.foldl (historyScanStep city) []).map Prod.fst := by
      apply List.map_congr_left
      intro p hp
      exact (hPairs p hp).2.2.1
    rw [h1, h2]
    exact sorted_keys_nodup _ hSorted
  · intro e he e2 he2 hm2 hid2
    obtain ⟨p, hp, hpe⟩ := List.mem_map.mp he
    obtain ⟨_, _, hid, hmax⟩ := hPairs p hp
    have hnot : ¬ (tsKey p.2.timestamp < tsKey e2.timestamp) := by
      apply hmax e2 he2 hm2
      rw [hid2, ← hpe]
      exact hid
    have hne : ¬ (tsGT e2.timestamp e.timestamp = true) := by
      rw [← hpe]
      intro hb
      exact hnot ((tsGT_iff _ _).mp hb)
    simpa using hne

/-- C5 witness: the sample history (two Warszawa entries, one Kraków entry)
yields an empty result for "Poznań". -/
theorem entriesForCityLatest_witness : getStationsForCity histSample "Poznań" = [] :=
  (entriesForCityLatest histSample "Poznań").2.2.1 (by decide)

theorem times_two_pi_lt_DBL_MAX (t : ℝ) (h1 : t ≤ Real.pi) : 6371 * (2 * t) < DBL_MAX := by
  have hpi : Real.pi < 3.141593 := Real.pi_lt_d6
  have h2 : 6371 * (2 * t) < 40040 := by nlinarith
  have h3 : (40040 : ℝ) < DBL_MAX := by
    unfold DBL_MAX
    have h4 : (40040 : ℝ) < 2 ^ 16 := by norm_num
    have h5 : (2 : ℝ) ^ 16 ≤ 2 ^ 1023 := by
      apply pow_le_pow_right₀ (by norm_num)
      norm_num
    have h6 : (2 : ℝ) ^ 971 ≤ 2 ^ 1023 := by
      apply pow_le_pow_right₀ (by norm_num)
      norm_num
    have h7 : (2 : ℝ) ^ 1023 + 2 ^ 1023 = 2 ^ 1024 := by ring
    linarith
  linarith

theorem calculateDistance_lt_DBL_MAX (lat1 lon1 lat2 lon2 : ℝ) :
    calculateDistance lat1 lon1 lat2 lon2 < DBL_MAX := by
  simp only [calculateDistance]
  exact times_two_pi_lt_DBL_MAX _ (Complex.arg_le_pi _)

theorem nearestLoop_spec (lat lon : ℝ) :
    ∀ (l : List StationEntry) (m : ℝ) (cl : Option StationEntry),
      (nearestLoop lat lon l m cl = (m, cl) ∧ ∀ e ∈ l, m ≤ entryDist lat lon e)
      ∨ (∃ i : Fin l.length,
          nearestLoop lat lon l m cl =
            (entryDist lat lon (l.get i),
             some { l.get i with dist := some (entryDist lat lon (l.get i)) })
          ∧ entryDist lat lon (l.get i) < m
          ∧ (∀ j : Fin l.length, entryDist lat lon (l.get i) ≤ entryDist lat lon (l.get j))
          ∧ (∀ j : Fin l.length, (j : ℕ) < (i : ℕ) →
              entryDist lat lon (l.get i) < entryDist lat lon (l.get j))) := by
  intro l
  induction l with
  | nil =>
    intro m cl
    left
    exact ⟨rfl, by simp⟩
  | cons e rest ih =>
    intro m cl
    by_cases hlt : entryDist lat lon e < m
    · have hstep : nearestLoop lat lon (e :: rest) m cl =
          nearestLoop lat lon rest (entryDist lat lon e)
            (some { e with dist := some (entryDist lat lon e) }) := by
        simp only [nearestLoop]
        rw [if_pos (by simpa [entryDist] using hlt)]
        unfold entryDist
        rfl
      rcases ih (entryDist lat lon e) (some { e with dist := some (entryDist lat lon e) }) with
        ⟨heq, hall⟩ | ⟨i, heq, hlt2, hmin, hfirst⟩
      · right
        refine ⟨⟨0, by simp⟩, ?_, hlt, ?_, ?_⟩
        · rw [hstep, heq]
          rfl
        · intro j
          rcases j with ⟨jv, hj⟩
          cases jv with
          | zero => exact le_refl _
          | succ k => exact hall _ (rest.get_mem k (by simpa using hj))
        · intro j hj
          exact absurd hj (Nat.not_lt_zero _)
      · right
        refine ⟨⟨i.val + 1, Nat.succ_lt_succ i.isLt⟩, ?_, lt_trans hlt2 hlt, ?_, ?_⟩
        · rw [hstep]
          exact heq
        · intro j
          rcases j with ⟨jv, hj⟩
          cases jv with
          | zero => exact le_of_lt hlt2
          | succ k => exact hmin ⟨k, by simpa using hj⟩
        · intro j hj
          rcases j with ⟨jv, hj2⟩
          cases jv with
          | zero => exact hlt2
          | succ k => exact hfirst ⟨k, by simpa using hj2⟩ (by simpa using hj)
    · have hstep : nearestLoop lat lon (e :: rest) m cl = nearestLoop lat lon rest m cl := by
        simp only [nearestLoop]
        rw [if_neg (by simpa [entryDist] using hlt)]
      rcases ih m cl with ⟨heq, hall⟩ | ⟨i, heq, hlt2, hmin, hfirst⟩
      · left
        refine ⟨hstep.trans heq, ?_⟩
        intro e2 he2
        rcases List.mem_cons.mp he2 with h | h
        · rw [h]
          exact not_lt.mp hlt
        · exact hall e2 h
      · right
        refine ⟨⟨i.val + 1, Nat.succ_lt_succ i.isLt⟩, ?_, hlt2, ?_, ?_⟩
        · rw [hstep]
          exact heq
        · intro j
          rcases j with ⟨jv, hj⟩
          cases jv with
          | zero => exact le_of_lt (lt_of_lt_of_le hlt2 (not_lt.mp hlt))
          | succ k => exact hmin ⟨k, by simpa using hj⟩
        · intro j hj
          rcases j with ⟨jv, hj2⟩
          cases jv with
          | zero => exact lt_of_lt_of_le hlt2 (not_lt.mp hlt)
          | succ k => exact hfirst ⟨k, by simpa using hj2⟩ (by simpa using hj)

theorem processStationsReply_nearestBranch (stations0 : List StationEntry) (body : JVal)
    (res : String) (hmode : selectionMode res = Mode.nearestMode) :
    processStationsReply { result := res, stations := stations0 } (Reply.success body) =
      (match nearestLoop (queryLat res) (queryLon res) (parseStations body.toArray)
          DBL_MAX none with
       | (minDist, some c) =>
         ({ result := "Najbliższa stacja: " ++ c.station.name ++ ", Odległość: " ++
              formatF2 minDist ++ " km"
            stations := [c] },
          [Signal.stationsChangedSig, Signal.resultChangedSig])
       | (minDist, none) =>
         ({ result := "Najbliższa stacja: " ++ emptyStation.name ++ ", Odległość: " ++
              formatF2 minDist ++ " km"
            stations := [{ station := emptyStation, dist := none }] },
          [Signal.stationsChangedSig, Signal.resultChangedSig])) := by
  simp only [processStationsReply]
  rw [hmode]

/-- C2 (amended): the nearest-station branch is triggered exactly when the
stored query is non-empty and contains a space (not only for two numeric
tokens); in that mode, for every non-empty parsed station list the result is a
singleton holding a first-minimum-distance station with the haversine distance
attached exactly, and the outcome message names that station and the distance
rendered with two decimals. -/
theorem nearestModeSelection (st : CatalogState) (body : JVal)
    (hne : st.result ≠ "") (hsp : containsSpace st.result = true)
    (hnonempty : parseStations body.toArray ≠ []) :
    (∀ r : String, selectionMode r = Mode.nearestMode ↔ (r ≠ "" ∧ containsSpace r = true))
    ∧ ∃ i : Fin (parseStations body.toArray).length,
        (processStationsReply st (Reply.success body)).1.stations =
          [{ (parseStations body.toArray).get i with
              dist := some (entryDist (queryLat st.result) (queryLon st.result)
                ((parseStations body.toArray).get i)) }]
        ∧ (∀ j : Fin (parseStations body.toArray).length,
            entryDist (queryLat st.result) (queryLon st.result)
              ((parseStations body.toArray).get i) ≤
            entryDist (queryLat st.result) (queryLon st.result)
              ((parseStations body.toArray).get j))
        ∧ (∀ j : Fin (parseStations body.toArray).length, (j : ℕ) < (i : ℕ) →
            entryDist (queryLat st.result) (queryLon st.result)
              ((parseStations body.toArray).get i) <
            entryDist (queryLat st.result) (queryLon st.result)
              ((parseStations body.toArray).get j))
        ∧ (processStationsReply st (Reply.success body)).1.result =
            "Najbliższa stacja: " ++ ((parseStations body.toArray).get i).station.name ++
              ", Odległość: " ++ formatF2 (entryDist (queryLat st.result)
                (queryLon st.result) ((parseStations body.toArray).get i)) ++ " km" := by
  refine ⟨selectionMode_eq_nearest_iff, ?_⟩
  obtain ⟨res, stations0⟩ := st
  have hne2 : res ≠ "" := hne
  have hsp2 : containsSpace res = true := hsp
  have hmode : selectionMode res = Mode.nearestMode :=
    (selectionMode_eq_nearest_iff res).mpr ⟨hne2, hsp2⟩
  have hred := processStationsReply_nearestBranch stations0 body res hmode
  rcases nearestLoop_spec (queryLat res) (queryLon res) (parseStations body.toArray)
      DBL_MAX none with ⟨_, hall⟩ | ⟨i, heq, _, hmin, hfirst⟩
  · exfalso
    obtain ⟨e, he⟩ := List.exists_mem_of_ne_nil _ hnonempty
    have h1 := hall e he
    have h2 : entryDist (queryLat res) (queryLon res) e < DBL_MAX := by
      unfold entryDist
      exact calculateDistance_lt_DBL_MAX _ _ _ _
    exact absurd h1 (not_le.mpr h2)
  · refine ⟨i, ?_, hmin, hfirst, ?_⟩
    · rw [hred, heq]
    · rw [hred, heq]

/-- C2 witness: the amended nearest-mode statement at the query "52 21" over a
one-station catalog. -/
theorem nearestModeSelection_witness :
    (∀ r : String, selectionMode r = Mode.nearestMode ↔ (r ≠ "" ∧ containsSpace r = true))
    ∧ ∃ i : Fin (parseStations nearestBodySample.toArray).length,
        (processStationsReply { result := "52 21", stations := [] }
            (Reply.success nearestBodySample)).1.stations =
          [{ (parseStations nearestBodySample.toArray).get i with
              dist := some (entryDist (queryLat "52 21") (queryLon "52 21")
                ((parseStations nearestBodySample.toArray).get i)) }]
        ∧ (∀ j : Fin (parseStations nearestBodySample.toArray).length,
            entryDist (queryLat "52 21") (queryLon "52 21")
              ((parseStations nearestBodySample.toArray).get i) ≤
            entryDist (queryLat "52 21") (queryLon "52 21")
              ((parseStations nearestBodySample.toArray).get j))
        ∧ (∀ j : Fin (parseStations nearestBodySample.toArray).length, (j : ℕ) < (i : ℕ) →
            entryDist (queryLat "52 21") (queryLon "52 21")
              ((parseStations nearestBodySample.toArray).get i) <
            entryDist (queryLat "52 21") (queryLon "52 21")
              ((parseStations nearestBodySample.toArray).get j))
        ∧ (processStationsReply { result := "52 21", stations := [] }
            (Reply.success nearestBodySample)).1.result =
            "Najbliższa stacja: " ++
              ((parseStations nearestBodySample.toArray).get i).station.name ++
              ", Odległość: " ++ formatF2 (entryDist (queryLat "52 21")
                (queryLon "52 21") ((parseStations nearestBodySample.toArray).get i)) ++
              " km" :=
  nearestModeSelection { result := "52 21", stations := [] } nearestBodySample
    (by decide) (by decide) (List.length_pos.mp (by decide))

theorem updatePending_self (p : Int → Int) (k : Int) (v : Int) : updatePending p k v k = v := by
  simp [updatePending]

theorem updatePending_twice (p : Int → Int) (k : Int) (v1 v2 : Int) :
    updatePending (updatePending p k v1) k v2 = updatePending p k v2 := by
  funext k2
  by_cases h : k2 = k <;> simp [updatePending, h]

theorem sensorsLoop_spec (l : List JVal) :
    ∀ (acc : List Sensor) (c : Int) (reqs : List Request),
      sensorsLoop l acc c reqs =
        (acc ++ l.map parseSensor, c + (l.length : Int),
          reqs ++ l.map (fun v => Request.dataReq (parseSensor v).id)) := by
  induction l with
  | nil => intro acc c reqs; simp [sensorsLoop]
  | cons v rest ih =>
    intro acc c reqs
    simp only [sensorsLoop]
    rw [ih]
    simp only [Prod.mk.injEq]
    refine ⟨?_, ?_, ?_⟩
    · simp
    · simp only [List.length_cons]
      push_cast
      ring
    · simp

theorem processSensorsReply_success (st : AppState) (body : JVal) :
    processSensorsReply st (Reply.success body) =
      ({ details := { st.details with sensors := body.toArray.map parseSensor }
         pending := updatePending st.pending st.details.stationId
           (st.pending st.details.stationId + (body.toArray.length : Int) - 1) },
       body.toArray.map (fun v => Request.dataReq (parseSensor v).id), []) := by
  simp only [processSensorsReply]
  rw [sensorsLoop_spec]
  simp

theorem stepEv_sensors (raws : List JVal) (dataResp : Nat → JVal) (indexResp : JVal)
    (st : AppState) :
    stepEv raws dataResp indexResp st DEvent.sensorsEv =
      { details := { st.details with sensors := raws.map parseSensor }
        pending := updatePending st.pending st.details.stationId
          (st.pending st.details.stationId + (raws.length : Int) - 1) } := by
  simp only [stepEv, applyEvent]
  rw [processSensorsReply_success]
  rfl

theorem stepEv_data (raws : List JVal) (dataResp : Nat → JVal) (indexResp : JVal)
    (st : AppState) (i : Nat) :
    stepEv raws dataResp indexResp st (DEvent.dataEv i) =
      { details :=
          { st.details with
            sensors :=
              attachMeasurements st.details.sensors (dataKey dataResp i) (dataMeas dataResp i) }
        pending := updatePending st.pending st.details.stationId
          (st.pending st.details.stationId - 1) } := rfl

theorem stepEv_index (raws : List JVal) (dataResp : Nat → JVal) (indexResp : JVal)
    (st : AppState) :
    stepEv raws dataResp indexResp st DEvent.indexEv =
      { details := { st.details with airQualityIndex := some (parseAirQualityIndex indexResp) }
        pending := updatePending st.pending st.details.stationId
          (st.pending st.details.stationId - 1) } := rfl

theorem stepEv_stationId (raws : List JVal) (dataResp : Nat → JVal) (indexResp : JVal)
    (st : AppState) (e : DEvent) :
    (stepEv raws dataResp indexResp st e).details.stationId = st.details.stationId := by
  cases e with
  | sensorsEv => rw [stepEv_sensors]
  | dataEv i => rw [stepEv_data]
  | indexEv => rw [stepEv_index]

theorem runEvents_nil (raws : List JVal) (dataResp : Nat → JVal) (indexResp : JVal)
    (st : AppState) : runEvents raws dataResp indexResp st [] = st := rfl

theorem runEvents_cons (raws : List JVal) (dataResp : Nat → JVal) (indexResp : JVal)
    (st : AppState) (e : DEvent) (σ : List DEvent) :
    runEvents raws dataResp indexResp st (e :: σ) =
      runEvents raws dataResp indexResp (stepEv raws dataResp indexResp st e) σ := rfl

theorem runEvents_append (raws : List JVal) (dataResp : Nat → JVal) (indexResp : JVal)
    (st : AppState) (σ1 σ2 : List DEvent) :
    runEvents raws dataResp indexResp st (σ1 ++ σ2) =
      runEvents raws dataResp indexResp (runEvents raws dataResp indexResp st σ1) σ2 :=
  List.foldl_append _ _ _ _

theorem runEvents_stationId (raws : List JVal) (dataResp : Nat → JVal) (indexResp : JVal) :
    ∀ (σ : List DEvent) (st : AppState),
      (runEvents raws dataResp indexResp st σ).details.stationId = st.details.stationId := by
  intro σ
  induction σ with
  | nil => intro st; rfl
  | cons e rest ih =>
    intro st
    rw [runEvents_cons, ih, stepEv_stationId]

theorem runEvents_pending (raws : List JVal) (dataResp : Nat → JVal) (indexResp : JVal)
    (sid : Int) :
    ∀ (σ : List DEvent) (st : AppState), st.details.stationId = sid →
      (runEvents raws dataResp indexResp st σ).pending sid =
        st.pending sid + (raws.length : Int) * (σ.countP isSensors : Int) - (σ.length : Int) := by
  intro σ
  induction σ with
  | nil => intro st _; simp [runEvents_nil]
  | cons e rest ih =>
    intro st hsid
    rw [runEvents_cons, ih _ ((stepEv_stationId raws dataResp indexResp st e).trans hsid)]
    cases e with
    | sensorsEv =>
      rw [stepEv_sensors]
      simp only [hsid, updatePending_self, List.countP_cons, List.length_cons, isSensors]
      push_cast
      ring
    | dataEv i =>
      rw [stepEv_data]
      simp only [hsid, updatePending_self, List.countP_cons, List.length_cons, isData, isSensors]
      push_cast
      ring
    | indexEv =>
      rw [stepEv_index]
      simp only [hsid, updatePending_self, List.countP_cons, List.length_cons, isIndex, isSensors]
      push_cast
      ring

theorem countP_partition (σ : List DEvent) :
    σ.countP isSensors + σ.countP isData + σ.countP isIndex = σ.length := by
  induction σ with
  | nil => rfl
  | cons e rest ih =>
    cases e <;> simp [List.countP_cons, isSensors, isData, isIndex] <;> omega

theorem countP_fullEvents_sensors (n : Nat) : (fullEvents n).countP isSensors = 1 := by
  have hmap : ∀ l : List Nat, (l.map DEvent.dataEv).countP isSensors = 0 := by
    intro l
    induction l with
    | nil => rfl
    | cons x rest ih => simp [List.countP_cons, isSensors, ih]
  simp [fullEvents, List.countP_cons, List.countP_append, isSensors, hmap]

theorem countP_fullEvents_index (n : Nat) : (fullEvents n).countP isIndex = 1 := by
  have hmap : ∀ l : List Nat, (l.map DEvent.dataEv).countP isIndex = 0 := by
    intro l
    induction l with
    | nil => rfl
    | cons x rest ih => simp [List.countP_cons, isIndex, ih]
  simp [fullEvents, List.countP_cons, List.countP_append, isIndex, hmap]

theorem fullEvents_length (n : Nat) : (fullEvents n).length = n + 2 := by
  simp [fullEvents]

theorem no_data_in_prefix :
    ∀ (P σ2 : List DEvent), noDataBeforeSensors (P ++ σ2) = true →
      P.countP isSensors = 0 → P.countP isData = 0 := by
  intro P
  induction P with
  | nil => intro σ2 _ _; rfl
  | cons e rest ih =>
    intro σ2 hnd hcs
    cases e with
    | sensorsEv => simp [List.countP_cons, isSensors] at hcs
    | dataEv i => simp [noDataBeforeSensors] at hnd
    | indexEv =>
      have h1 : noDataBeforeSensors (rest ++ σ2) = true := by
        simpa [noDataBeforeSensors] using hnd
      have h2 : rest.countP isSensors = 0 := by
        simpa [List.countP_cons, isSensors] using hcs
      simpa [List.countP_cons, isData] using ih σ2 h1 h2

theorem causal_perm_cases (n : Nat) (σ : List DEvent)
    (hperm : σ.Perm (fullEvents n)) (hcausal : noDataBeforeSensors σ = true) :
    (∃ τ, σ = DEvent.sensorsEv :: τ
      ∧ τ.Perm ((List.range n).map DEvent.dataEv ++ [DEvent.indexEv]))
    ∨ (∃ τ, σ = DEvent.indexEv :: DEvent.sensorsEv :: τ
      ∧ τ.Perm ((List.range n).map DEvent.dataEv)) := by
  cases σ with
  | nil =>
    exfalso
    have := hperm.length_eq
    rw [fullEvents_length] at this
    simp at this
  | cons e rest =>
    cases e with
    | sensorsEv =>
      left
      exact ⟨rest, rfl, hperm.cons_inv⟩
    | dataEv i =>
      exfalso
      simp [noDataBeforeSensors] at hcausal
    | indexEv =>
      cases rest with
      | nil =>
        exfalso
        have := hperm.length_eq
        rw [fullEvents_length] at this
        simp at this
      | cons e2 rest2 =>
        cases e2 with
        | sensorsEv =>
          right
          refine ⟨rest2, rfl, ?_⟩
          have h1 : (DEvent.sensorsEv :: DEvent.indexEv :: rest2).Perm (fullEvents n) :=
            (List.Perm.swap _ _ _).symm.trans hperm
          have h2 : (DEvent.indexEv :: rest2).Perm
              ((List.range n).map DEvent.dataEv ++ [DEvent.indexEv]) := h1.cons_inv
          have h3 : ((List.range n).map DEvent.dataEv ++ [DEvent.indexEv]).Perm
              (DEvent.indexEv :: (List.range n).map DEvent.dataEv) :=
            List.perm_append_singleton _ _
          exact (h2.trans h3).cons_inv
        | dataEv i =>
          exfalso
          simp [noDataBeforeSensors] at hcausal
        | indexEv =>
          exfalso
          have hcount := hperm.countP_eq isIndex
          rw [countP_fullEvents_index] at hcount
          simp [List.countP_cons, isIndex] at hcount

theorem popFrom_congr (S : List Sensor) :
    ∀ (g g2 : Nat → Option (List Measurement)) (base : Nat),
      (∀ i, base ≤ i → i < base + S.length → g i = g2 i) →
      popFrom g base S = popFrom g2 base S := by
  induction S with
  | nil => intro g g2 base _; rfl
  | cons s rest ih =>
    intro g g2 base h
    simp only [popFrom]
    rw [h base (le_refl _) (by simp), ih g g2 (base + 1) (fun i h1 h2 => h i (by omega) (by
      simp only [List.length_cons]
      omega))]

theorem popFrom_length (g : Nat → Option (List Measurement)) :
    ∀ (S : List Sensor) (base : Nat), (popFrom g base S).length = S.length := by
  intro S
  induction S with
  | nil => intro base; rfl
  | cons s rest ih => intro base; simp [popFrom, ih]

theorem popFrom_map_none (raws : List JVal) :
    ∀ base : Nat, popFrom (fun _ => none) base (raws.map parseSensor) = raws.map parseSensor := by
  induction raws with
  | nil => intro base; rfl
  | cons v rest ih =>
    intro base
    simp only [List.map_cons, popFrom]
    rw [ih (base + 1)]
    rfl

theorem attachMeasurements_popFrom (k : String) (ms : List Measurement) :
    ∀ (S : List Sensor) (g : Nat → Option (List Measurement)) (base j : Nat)
      (hj : j < S.length),
      (S.get ⟨j, hj⟩).paramFormula = k →
      (∀ (i : Nat) (hi : i < S.length), (S.get ⟨i, hi⟩).paramFormula = k → i = j) →
      attachMeasurements (popFrom g base S) k ms =
        popFrom (fun i => if i = base + j then some ms else g i) base S := by
  intro S
  induction S with
  | nil => intro g base j hj; exact absurd hj (Nat.not_lt_zero _)
  | cons s rest ih =>
    intro g base j hj hkey huniq
    cases j with
    | zero =>
      have hhead : s.paramFormula = k := hkey
      simp only [popFrom, attachMeasurements]
      rw [if_pos hhead]
      congr 1
      · rw [if_pos (show base = base + 0 by omega)]
      · apply popFrom_congr
        intro i h1 h2
        rw [if_neg (by omega)]
    | succ jp =>
      have hhead : ¬ (s.paramFormula = k) := by
        intro hcon
        exact Nat.succ_ne_zero jp (huniq 0 (Nat.succ_pos _) hcon).symm
      simp only [popFrom, attachMeasurements]
      rw [if_neg hhead]
      have hjp : jp < rest.length := Nat.lt_of_succ_lt_succ hj
      rw [ih g (base + 1) jp hjp hkey
        (fun i hi hfi => Nat.succ_injective (huniq (i + 1) (Nat.succ_lt_succ hi) hfi))]
      congr 1
      · rw [if_neg (by omega)]
      · apply popFrom_congr
        intro i h1 h2
        by_cases hc : i = base + 1 + jp
        · rw [if_pos hc, if_pos (by omega)]
        · rw [if_neg hc, if_neg (by omega)]

theorem formula_index_unique (S : List Sensor)
    (hnd : (S.map Sensor.paramFormula).Nodup) (j : Nat) (hj : j < S.length) :
    ∀ (i : Nat) (hi : i < S.length),
      (S.get ⟨i, hi⟩).paramFormula = (S.get ⟨j, hj⟩).paramFormula → i = j := by
  intro i hi heq
  have hi2 : i < (S.map Sensor.paramFormula).length := by simpa using hi
  have hj2 : j < (S.map Sensor.paramFormula).length := by simpa using hj
  have h1 : (S.map Sensor.paramFormula).get ⟨i, hi2⟩ =
      (S.map Sensor.paramFormula).get ⟨j, hj2⟩ := by
    simpa [List.get_eq_getElem, List.getElem_map] using heq
  have h2 := (List.Nodup.get_inj_iff hnd).mp h1
  simpa using h2

theorem getD_eq_get_of_lt {α : Type} (l : List α) (d : α) (n : Nat) (h : n < l.length) :
    l.getD n d = l.get ⟨n, h⟩ := by
  rw [List.getD_eq_getElem?_getD, List.getElem?_eq_getElem h]
  rfl

theorem runEvents_dataAsc (raws : List JVal) (dataResp : Nat → JVal) (indexResp : JVal)
    (hkey : ∀ i : Nat, i < raws.length →
      dataKey dataResp i = ((raws.map parseSensor).getD i defaultSensor).paramFormula)
    (hnodup : ((raws.map parseSensor).map Sensor.paramFormula).Nodup) :
    ∀ (cnt j : Nat) (st : AppState) (g : Nat → Option (List Measurement)),
      j + cnt = raws.length →
      st.details.sensors = popFrom g 0 (raws.map parseSensor) →
      (runEvents raws dataResp indexResp st
          ((List.range' j cnt).map DEvent.dataEv)).details.stationId = st.details.stationId
      ∧ (runEvents raws dataResp indexResp st
          ((List.range' j cnt).map DEvent.dataEv)).details.airQualityIndex =
            st.details.airQualityIndex
      ∧ (runEvents raws dataResp indexResp st
          ((List.range' j cnt).map DEvent.dataEv)).details.sensors =
            popFrom (fun i => if j ≤ i ∧ i < raws.length then some (dataMeas dataResp i) else g i)
              0 (raws.map parseSensor) := by
  intro cnt
  induction cnt with
  | zero =>
    intro j st g hcnt hsens
    refine ⟨rfl, rfl, ?_⟩
    show st.details.sensors = _
    rw [hsens]
    apply popFrom_congr
    intro i h1 h2
    simp only [List.length_map] at h2
    rw [if_neg (by omega)]
  | succ cntp ih =>
    intro j st g hcnt hsens
    have hj : j < raws.length := by omega
    have hj2 : j < (raws.map parseSensor).length := by simpa using hj
    rw [List.range'_succ, List.map_cons, runEvents_cons]
    have hkeyj : ((raws.map parseSensor).get ⟨j, hj2⟩).paramFormula = dataKey dataResp j := by
      rw [hkey j hj, getD_eq_get_of_lt _ _ _ hj2]
    have hsens2 : (stepEv raws dataResp indexResp st (DEvent.dataEv j)).details.sensors =
        popFrom (fun i => if i = j then some (dataMeas dataResp j) else g i) 0
          (raws.map parseSensor) := by
      rw [stepEv_data]
      show attachMeasurements st.details.sensors (dataKey dataResp j) (dataMeas dataResp j) = _
      rw [hsens, attachMeasurements_popFrom (dataKey dataResp j) (dataMeas dataResp j)
        (raws.map parseSensor) g 0 j hj2 hkeyj ?_]
      · apply popFrom_congr
        intro i h1 h2
        by_cases hc : i = j
        · rw [if_pos (by omega), if_pos hc]
        · rw [if_neg (by omega), if_neg hc]
      · intro i hi hfi
        exact formula_index_unique (raws.map parseSensor) hnodup j hj2 i hi (hfi.trans hkeyj.symm)
    obtain ⟨h1, h2, h3⟩ := ih (j + 1) (stepEv raws dataResp indexResp st (DEvent.dataEv j))
      (fun i => if i = j then some (dataMeas dataResp j) else g i) (by omega) hsens2
    refine ⟨?_, ?_, ?_⟩
    · rw [h1, stepEv_stationId]
    · rw [h2, stepEv_data]
    · rw [h3]
      apply popFrom_congr
      intro i hle hlt
      simp only [List.length_map] at hlt
      by_cases hc : i = j
      · subst hc
        rw [if_neg (by omega), if_pos rfl, if_pos (by omega)]
      · by_cases hc2 : j + 1 ≤ i ∧ i < raws.length
        · rw [if_pos hc2, if_pos (by omega)]
        · rw [if_neg hc2, if_neg hc, if_neg (by omega)]

theorem attachMeasurements_comm (k1 k2 : String) (m1 m2 : List Measurement) (hne : k1 ≠ k2) :
    ∀ S : List Sensor,
      attachMeasurements (attachMeasurements S k1 m1) k2 m2 =
        attachMeasurements (attachMeasurements S k2 m2) k1 m1 := by
  intro S
  induction S with
  | nil => rfl
  | cons s rest ih =>
    by_cases h1 : s.paramFormula = k1
    · have h2 : ¬ (s.paramFormula = k2) := by rw [h1]; exact hne
      simp only [attachMeasurements, if_pos h1, if_neg h2]
    · by_cases h2 : s.paramFormula = k2
      · simp only [attachMeasurements, if_pos h2, if_neg h1]
      · simp only [attachMeasurements, if_neg h1, if_neg h2]
        simp only [attachMeasurements, if_neg h1, if_neg h2, ih]

theorem stepEv_data_data_comm (raws : List JVal) (dataResp : Nat → JVal) (indexResp : JVal)
    (i j : Nat) (hne : dataKey dataResp i ≠ dataKey dataResp j) (z : AppState) :
    stepEv raws dataResp indexResp
        (stepEv raws dataResp indexResp z (DEvent.dataEv i)) (DEvent.dataEv j) =
      stepEv raws dataResp indexResp
        (stepEv raws dataResp indexResp z (DEvent.dataEv j)) (DEvent.dataEv i) := by
  rw [stepEv_data, stepEv_data, stepEv_data, stepEv_data]
  refine AppState.ext ?_ ?_
  · refine StationDetails.ext rfl ?_ rfl
    exact attachMeasurements_comm _ _ _ _ hne _
  · funext k
    by_cases hk : k = z.details.stationId <;> simp [updatePending, hk]

theorem stepEv_data_index_comm (raws : List JVal) (dataResp : Nat → JVal) (indexResp : JVal)
    (i : Nat) (z : AppState) :
    stepEv raws dataResp indexResp
        (stepEv raws dataResp indexResp z (DEvent.dataEv i)) DEvent.indexEv =
      stepEv raws dataResp indexResp
        (stepEv raws dataResp indexResp z DEvent.indexEv) (DEvent.dataEv i) := by
  rw [stepEv_data, stepEv_index, stepEv_data, stepEv_index]

theorem applyEvent_eq (raws : List JVal) (dataResp : Nat → JVal) (indexResp : JVal)
    (st : AppState) (e : DEvent) :
    applyEvent raws dataResp indexResp st e =
      (stepEv raws dataResp indexResp st e,
       if isSensors e then raws.map (fun v => Request.dataReq (parseSensor v).id) else []) := by
  cases e with
  | sensorsEv =>
    have h := processSensorsReply_success st (JVal.jarr raws)
    simp only [applyEvent, stepEv, h, isSensors, if_true]
    rfl
  | dataEv i => rfl
  | indexEv => rfl

theorem runEventsFull_requests (raws : List JVal) (dataResp : Nat → JVal) (indexResp : JVal) :
    ∀ (σ : List DEvent) (st : AppState),
      (runEventsFull raws dataResp indexResp st σ).2.length =
        raws.length * σ.countP isSensors := by
  intro σ
  induction σ with
  | nil => intro st; simp [runEventsFull]
  | cons e rest ih =>
    intro st
    simp only [runEventsFull, applyEvent_eq]
    cases e with
    | sensorsEv =>
      simp only [isSensors, if_true, List.countP_cons, List.length_append, List.length_map, ih]
      ring_nf
    | dataEv i =>
      simp only [isSensors, if_false, List.countP_cons, List.length_append, ih]
      simp [isSensors]
    | indexEv =>
      simp only [isSensors, if_false, List.countP_cons, List.length_append, ih]
      simp [isSensors]

/-- C1: a detail fetch for a station whose sensor-list response has `n`
sensors issues exactly `n + 2` sub-requests (sensor list and index at fetch
start, one measurement request per sensor when the sensor list arrives); and
for every causal arrival order of the `n + 2` successful responses (the
sensor list before every measurement response — measurement requests do not
exist earlier), if sensor formulas are distinct and each measurement
response's key is its sensor's `paramFormula`, the merged detail record has
every sensor populated with exactly its null-filtered, order-preserving
measurement series, and the air-quality index set. -/
theorem detailFanIn (st0 : AppState) (sid : Int) (raws : List JVal) (dataResp : Nat → JVal)
    (indexResp : JVal) (σ : List DEvent)
    (hkey : ∀ i : Nat, i < raws.length →
      dataKey dataResp i = ((raws.map parseSensor).getD i defaultSensor).paramFormula)
    (hnodup : ((raws.map parseSensor).map Sensor.paramFormula).Nodup)
    (hperm : σ.Perm (fullEvents raws.length))
    (hcausal : noDataBeforeSensors σ = true) :
    (fetchStationDetails st0 sid).2.length +
        (runEventsFull raws dataResp indexResp (fetchStationDetails st0 sid).1 σ).2.length =
      raws.length + 2
    ∧ (runEvents raws dataResp indexResp (fetchStationDetails st0 sid).1 σ).details.stationId = sid
    ∧ (runEvents raws dataResp indexResp (fetchStationDetails st0 sid).1 σ).details.sensors =
        popFrom (fun i => some (dataMeas dataResp i)) 0 (raws.map parseSensor)
    ∧ (runEvents raws dataResp indexResp
        (fetchStationDetails st0 sid).1 σ).details.airQualityIndex =
          some (parseAirQualityIndex indexResp) := by
  have hreq : (fetchStationDetails st0 sid).2.length +
      (runEventsFull raws dataResp indexResp (fetchStationDetails st0 sid).1 σ).2.length =
        raws.length + 2 := by
    rw [runEventsFull_requests, (hperm.countP_eq isSensors).trans
      (countP_fullEvents_sensors raws.length)]
    simp [fetchStationDetails]
    ring
  have hkeydiff : ∀ i j : Nat, i < raws.length → j < raws.length → i ≠ j →
      dataKey dataResp i ≠ dataKey dataResp j := by
    intro i j hi hj hij heq
    apply hij
    have hi2 : i < (raws.map parseSensor).length := by simpa using hi
    have hj2 : j < (raws.map parseSensor).length := by simpa using hj
    apply formula_index_unique (raws.map parseSensor) hnodup j hj2 i hi2
    rw [← getD_eq_get_of_lt _ defaultSensor i hi2, ← getD_eq_get_of_lt _ defaultSensor j hj2,
      ← hkey i hi, ← hkey j hj]
    exact heq
  have hstart_sens : (fetchStationDetails st0 sid).1.details.sensors = [] := rfl
  have hstart_id : (fetchStationDetails st0 sid).1.details.stationId = sid := rfl
  rcases causal_perm_cases raws.length σ hperm hcausal with ⟨τ, hσ, hτ⟩ | ⟨τ, hσ, hτ⟩
  · subst hσ
    have hcomm : ∀ x ∈ τ, ∀ y ∈ τ, ∀ z : AppState,
        stepEv raws dataResp indexResp (stepEv raws dataResp indexResp z x) y =
          stepEv raws dataResp indexResp (stepEv raws dataResp indexResp z y) x := by
      have hmemτ : ∀ x ∈ τ, (∃ i, i < raws.length ∧ x = DEvent.dataEv i)
          ∨ x = DEvent.indexEv := by
        intro x hx
        rcases List.mem_append.mp (hτ.mem_iff.mp hx) with h | h
        · obtain ⟨i, hi, hxi⟩ := List.mem_map.mp h
          exact Or.inl ⟨i, List.mem_range.mp hi, hxi.symm⟩
        · exact Or.inr (List.eq_of_mem_singleton h)
      intro x hx y hy z
      rcases hmemτ x hx with ⟨i, hi, hxe⟩ | hxe <;> rcases hmemτ y hy with ⟨j, hj, hye⟩ | hye
      · subst hxe
        subst hye
        by_cases hij : i = j
        · subst hij
          rfl
        · exact stepEv_data_data_comm raws dataResp indexResp i j (hkeydiff i j hi hj hij) z
      · subst hxe
        subst hye
        exact stepEv_data_index_comm raws dataResp indexResp i z
      · subst hxe
        subst hye
        exact (stepEv_data_index_comm raws dataResp indexResp j z).symm
      · subst hxe
        subst hye
        rfl
    rw [runEvents_cons]
    have hfold := hτ.foldl_eq' hcomm
      (stepEv raws dataResp indexResp (fetchStationDetails st0 sid).1 DEvent.sensorsEv)
    show _ ∧ _ ∧ _ ∧ _
    refine ⟨hreq, ?_⟩
    have hτrw : runEvents raws dataResp indexResp
        (stepEv raws dataResp indexResp (fetchStationDetails st0 sid).1 DEvent.sensorsEv) τ =
      stepEv raws dataResp indexResp
        (runEvents raws dataResp indexResp
          (stepEv raws dataResp indexResp (fetchStationDetails st0 sid).1 DEvent.sensorsEv)
          ((List.range' 0 raws.length).map DEvent.dataEv))
        DEvent.indexEv := by
      show List.foldl _ _ τ = _
      rw [hfold, ← List.range_eq_range']
      rw [show ((List.range raws.length).map DEvent.dataEv ++ [DEvent.indexEv]).foldl
          (stepEv raws dataResp indexResp) _ =
        runEvents raws dataResp indexResp _
          ((List.range raws.length).map DEvent.dataEv ++ [DEvent.indexEv]) from rfl]
      rw [runEvents_append, List.range_eq_range']
      rfl
    rw [hτrw]
    have hs1sens : (stepEv raws dataResp indexResp
        (fetchStationDetails st0 sid).1 DEvent.sensorsEv).details.sensors =
          popFrom (fun _ => none) 0 (raws.map parseSensor) := by
      rw [stepEv_sensors, popFrom_map_none]
    obtain ⟨hd1, hd2, hd3⟩ := runEvents_dataAsc raws dataResp indexResp hkey hnodup
      raws.length 0
      (stepEv raws dataResp indexResp (fetchStationDetails st0 sid).1 DEvent.sensorsEv)
      (fun _ => none) (by omega) hs1sens
    rw [stepEv_index]
    refine ⟨?_, ?_, rfl⟩
    · show (runEvents raws dataResp indexResp _ _).details.stationId = sid
      rw [hd1, stepEv_stationId, hstart_id]
    · show (runEvents raws dataResp indexResp _ _).details.sensors = _
      rw [hd3]
      apply popFrom_congr
      intro i h1 h2
      simp only [List.length_map] at h2
      rw [if_pos (by omega)]
  · subst hσ
    have hcomm : ∀ x ∈ τ, ∀ y ∈ τ, ∀ z : AppState,
        stepEv raws dataResp indexResp (stepEv raws dataResp indexResp z x) y =
          stepEv raws dataResp indexResp (stepEv raws dataResp indexResp z y) x := by
      have hmemτ : ∀ x ∈ τ, ∃ i, i < raws.length ∧ x = DEvent.dataEv i := by
        intro x hx
        obtain ⟨i, hi, hxi⟩ := List.mem_map.mp (hτ.mem_iff.mp hx)
        exact ⟨i, List.mem_range.mp hi, hxi.symm⟩
      intro x hx y hy z
      obtain ⟨i, hi, hxe⟩ := hmemτ x hx
      obtain ⟨j, hj, hye⟩ := hmemτ y hy
      subst hxe
      subst hye
      by_cases hij : i = j
      · subst hij
        rfl
      · exact stepEv_data_data_comm raws dataResp indexResp i j (hkeydiff i j hi hj hij) z
    rw [runEvents_cons, runEvents_cons]
    have hfold := hτ.foldl_eq' hcomm
      (stepEv raws dataResp indexResp
        (stepEv raws dataResp indexResp (fetchStationDetails st0 sid).1 DEvent.indexEv)
        DEvent.sensorsEv)
    have hτrw : runEvents raws dataResp indexResp
        (stepEv raws dataResp indexResp
          (stepEv raws dataResp indexResp (fetchStationDetails st0 sid).1 DEvent.indexEv)
          DEvent.sensorsEv) τ =
      runEvents raws dataResp indexResp
        (stepEv raws dataResp indexResp
          (stepEv raws dataResp indexResp (fetchStationDetails st0 sid).1 DEvent.indexEv)
          DEvent.sensorsEv)
        ((List.range' 0 raws.length).map DEvent.dataEv) := by
      show List.foldl _ _ τ = _
      rw [hfold, ← List.range_eq_range']
      rfl
    rw [hτrw]
    have hs2sens : (stepEv raws dataResp indexResp
        (stepEv raws dataResp indexResp (fetchStationDetails st0 sid).1 DEvent.indexEv)
        DEvent.sensorsEv).details.sensors =
          popFrom (fun _ => none) 0 (raws.map parseSensor) := by
      rw [stepEv_sensors, popFrom_map_none]
    obtain ⟨hd1, hd2, hd3⟩ := runEvents_dataAsc raws dataResp indexResp hkey hnodup
      raws.length 0
      (stepEv raws dataResp indexResp
        (stepEv raws dataResp indexResp (fetchStationDetails st0 sid).1 DEvent.indexEv)
        DEvent.sensorsEv)
      (fun _ => none) (by omega) hs2sens
    refine ⟨hreq, ?_, ?_, ?_⟩
    · rw [hd1, stepEv_stationId, stepEv_stationId, hstart_id]
    · rw [hd3]
      apply popFrom_congr
      intro i h1 h2
      simp only [List.length_map] at h2
      rw [if_pos (by omega)]
    · rw [hd2, stepEv_sensors]
      show (stepEv raws dataResp indexResp
        (fetchStationDetails st0 sid).1 DEvent.indexEv).details.airQualityIndex = _
      rw [stepEv_index]

/-- C1 witness: the two-sensor scenario processed in the out-of-order causal
arrival order `[sensors, data 1, index, data 0]`. -/
theorem detailFanIn_witness :
    (fetchStationDetails initAppState 7).2.length +
        (runEventsFull sensorsBodySample dataRespSample indexRespSample
          (fetchStationDetails initAppState 7).1 eventsOrderSample).2.length =
      sensorsBodySample.length + 2
    ∧ (runEvents sensorsBodySample dataRespSample indexRespSample
        (fetchStationDetails initAppState 7).1 eventsOrderSample).details.stationId = 7
    ∧ (runEvents sensorsBodySample dataRespSample indexRespSample
        (fetchStationDetails initAppState 7).1 eventsOrderSample).details.sensors =
        popFrom (fun i => some (dataMeas dataRespSample i)) 0
          (sensorsBodySample.map parseSensor)
    ∧ (runEvents sensorsBodySample dataRespSample indexRespSample
        (fetchStationDetails initAppState 7).1 eventsOrderSample).details.airQualityIndex =
          some (parseAirQualityIndex indexRespSample) :=
  detailFanIn initAppState 7 sensorsBodySample dataRespSample indexRespSample
    eventsOrderSample (by decide) (by decide) (by decide) (by decide)

theorem sensorsLoopTrace_pos :
    ∀ (l : List JVal) (c : Int), 1 ≤ c → ∀ v ∈ sensorsLoopTrace l c, 1 ≤ v := by
  intro l
  induction l with
  | nil => intro c _ v hv; simp [sensorsLoopTrace] at hv
  | cons e rest ih =>
    intro c hc v hv
    rcases List.mem_cons.mp hv with h | h
    · omega
    · exact ih (c + 1) (by omega) v h

/-- C6: the per-station pending counter is set to 2 at detail-fetch start;
within the sensor-list processing step the counter values seen after each
per-sensor increment stay at least 1 whenever the step starts at a positive
counter (the single decrement for the list itself comes only after all
increments); and over every causal arrival order of the `n + 2` successful
sub-responses the counter is 0 after all of them and still positive after
every proper prefix. -/
theorem pendingCounterInvariant (st0 : AppState) (sid : Int) (raws : List JVal)
    (dataResp : Nat → JVal) (indexResp : JVal) :
    (fetchStationDetails st0 sid).1.pending sid = 2
    ∧ (∀ c : Int, 1 ≤ c → ∀ l : List JVal, ∀ v ∈ c :: sensorsLoopTrace l c, 1 ≤ v)
    ∧ ∀ σ : List DEvent, σ.Perm (fullEvents raws.length) → noDataBeforeSensors σ = true →
        ((runEvents raws dataResp indexResp
            (fetchStationDetails st0 sid).1 σ).pending sid = 0
          ∧ ∀ P σ2 : List DEvent, σ = P ++ σ2 → σ2 ≠ [] →
              1 ≤ (runEvents raws dataResp indexResp
                (fetchStationDetails st0 sid).1 P).pending sid) := by
  have hp2 : (fetchStationDetails st0 sid).1.pending sid = 2 := by
    simp [fetchStationDetails, updatePending]
  have hsid : (fetchStationDetails st0 sid).1.details.stationId = sid := rfl
  refine ⟨hp2, ?_, ?_⟩
  · intro c hc l v hv
    rcases List.mem_cons.mp hv with h | h
    · omega
    · exact sensorsLoopTrace_pos l c hc v h
  · intro σ hperm hcausal
    have hcs : σ.countP isSensors = 1 :=
      (hperm.countP_eq isSensors).trans (countP_fullEvents_sensors raws.length)
    have hci : σ.countP isIndex = 1 :=
      (hperm.countP_eq isIndex).trans (countP_fullEvents_index raws.length)
    have hlen : σ.length = raws.length + 2 :=
      hperm.length_eq.trans (fullEvents_length raws.length)
    constructor
    · rw [runEvents_pending raws dataResp indexResp sid σ _ hsid, hp2, hcs, hlen]
      push_cast
      ring
    · intro P σ2 hPσ hσ2
      have hcsP : P.countP isSensors ≤ 1 := by
        have := List.countP_append isSensors P σ2
        rw [← hPσ, hcs] at this
        omega
      have hciP : P.countP isIndex ≤ 1 := by
        have := List.countP_append isIndex P σ2
        rw [← hPσ, hci] at this
        omega
      have hlenP : P.length < raws.length + 2 := by
        have h1 : σ.length = P.length + σ2.length := by rw [hPσ]; simp
        have h2 : 0 < σ2.length := List.length_pos.mpr hσ2
        omega
      rw [runEvents_pending raws dataResp indexResp sid P _ hsid, hp2]
      by_cases hc0 : P.countP isSensors = 0
      · have hcd : P.countP isData = 0 :=
          no_data_in_prefix P σ2 (hPσ ▸ hcausal) hc0
        have hpart := countP_partition P
        rw [hc0]
        push_cast
        omega
      · have hc1 : P.countP isSensors = 1 := by omega
        rw [hc1]
        push_cast
        omega

/-- C6 witness: the two-sensor scenario in the causal order
`[index, sensors, data 0, data 1]` drives the pending counter to zero. -/
theorem pendingCounterInvariant_witness :
    (runEvents sensorsBodySample dataRespSample indexRespSample
      (fetchStationDetails initAppState 7).1 eventsOrderSample2).pending 7 = 0 :=
  ((pendingCounterInvariant initAppState 7 sensorsBodySample dataRespSample
      indexRespSample).2.2 eventsOrderSample2 (by decide) (by decide)).1

end JPO
